import Mathlib

/-!
MyUni: favourites and city controller (`static/app.js`)

A shallow embedding of the browser-side module `static/app.js` and proofs of
its testable properties.

Platform model.  The module is glue over browser built-ins, which are modelled
as follows.

* A JavaScript string is the list of its UTF-16 code units, so unpaired
  surrogates are ordinary strings.  `utf16` writes a literal.
* `localStorage` is a total map from keys to optional string values; writes
  always succeed.
* `JSON.parse` / `JSON.stringify` follow the JSON grammar of ECMA-404 and the
  serialisation rules of ECMA-262.  A number is rounded to the nearest
  binary64 value (ties to even) and carried as the shortest decimal that
  reads back as that value, which is what `Number::toString` prints; values
  that overflow are the infinities.
* `Set` is an insertion-ordered list without repetitions under SameValueZero.
* `encodeURIComponent` raises a `URIError` on an unpaired surrogate.
* The document is a flat list of elements, each with attributes, a class list
  and a text content (`innerHTML` / `textContent`).
* `alert`, `window.location.href` and `fetch` are recorded in the state; a
  response carries its status and its body text.

The `DOMContentLoaded` handler (initial rendering and the scroll-reveal
effect) writes no storage and is not part of the public interface; it is not
embedded.
-/

namespace MyUni

/-! ## JavaScript strings, values and errors -/

/-- A UTF-16 code unit. -/
abbrev CodeUnit := Fin 65536

/-- A JavaScript string: the list of its code units. -/
abbrev JSString := List CodeUnit

/-- The code unit with the given value. -/
def cu (n : Nat) : CodeUnit := ⟨n % 65536, Nat.mod_lt n (by decide)⟩

/-- The UTF-16 encoding of a text: one code unit for a code point of the basic
plane, a surrogate pair otherwise. -/
def utf16 (s : String) : JSString :=
  s.data.flatMap fun c =>
    if c.toNat < 65536 then [cu c.toNat]
    else [cu (55296 + (c.toNat - 65536) / 1024), cu (56320 + (c.toNat - 65536) % 1024)]

/-- Leading (high) surrogate test. -/
def isHighSurrogate (c : CodeUnit) : Bool := 55296 ≤ c.val && c.val ≤ 56319

/-- Trailing (low) surrogate test. -/
def isLowSurrogate (c : CodeUnit) : Bool := 56320 ≤ c.val && c.val ≤ 57343

/-- The string starts with a trailing surrogate. -/
def startsWithLow : JSString → Bool
  | [] => false
  | b :: _ => isLowSurrogate b

/-- The code points of the rest of a string, after a leading surrogate `hi`
that the next code unit completes (`some hi`) or at a code point boundary
(`none`): a leading surrogate followed by a trailing one is one code point,
every other code unit is a code point of its own. -/
def codePointsFrom : Option CodeUnit → JSString → List JSString
  | none, [] => []
  | some hi, [] => [[hi]]
  | some hi, b :: cs => [hi, b] :: codePointsFrom none cs
  | none, a :: rest =>
    if isHighSurrogate a ∧ startsWithLow rest then codePointsFrom (some a) rest
    else [a] :: codePointsFrom none rest

/-- The code points of a string, each as the string of its code units. -/
def codePoints (s : JSString) : List JSString := codePointsFrom none s

/-- Exceptions the module can raise or let through. -/
inductive JSError where
  | syntaxError
  | typeError
  | uriError
  | error (msg : JSString)
  deriving DecidableEq, Repr

/-- Values produced by `JSON.parse`.  A finite number `num neg ds e` denotes
`(-1)^neg * ds * 10^e`, where `ds` lists the decimal digits, most significant
first, without leading or trailing zeros (the zeros are `num false [] 0` and
`num true [] 0`); `inf neg` is an infinity. -/
inductive JsVal where
  | null
  | bool (b : Bool)
  | num (neg : Bool) (digits : List Nat) (exp : Int)
  | inf (neg : Bool)
  | str (s : JSString)
  | arr (elems : List JsVal)
  | obj (fields : List (JSString × JsVal))
  deriving Repr

/-! ## Numbers: rounding to binary64 and the shortest decimal -/

/-- Number of binary digits of `n`, for `n` below `2 ^ fuel`. -/
def bitLength : Nat → Nat → Nat
  | 0, _ => 0
  | fuel + 1, n => if n = 0 then 0 else bitLength fuel (n / 2) + 1

/-- The comparison `a / b < 2 ^ e` for positive `b`. -/
def ltPow2 (a b : Nat) (e : Int) : Bool :=
  if 0 ≤ e then a < b * 2 ^ e.toNat else a * 2 ^ (-e).toNat < b

/-- The comparison `a / b < 10 ^ e` for positive `b`. -/
def ltPow10 (a b : Nat) (e : Int) : Bool :=
  if 0 ≤ e then a < b * 10 ^ e.toNat else a * 10 ^ (-e).toNat < b

/-- A finite binary64 value `m * 2 ^ q` in normal form: `m < 2 ^ 53`, and
`2 ^ 52 ≤ m` unless `q = -1074`. -/
structure Binary64 where
  m : Nat
  q : Int
  deriving DecidableEq, Repr

/-- Number of binary digits of `n`. -/
def bits (n : Nat) : Nat := bitLength n n

/-- The positive rational `a / b` rounded to the nearest binary64 value, ties
to even; `none` when the result overflows. -/
def roundBinary64 (a b : Nat) : Option Binary64 :=
  let e0 : Int := (bits a : Int) - (bits b : Int)
  let e : Int := if ltPow2 a b e0 then e0 - 1 else e0
  let q : Int := max (e - 52) (-1074)
  let num : Nat := if q < 0 then a * 2 ^ (-q).toNat else a
  let den : Nat := if q < 0 then b else b * 2 ^ q.toNat
  let m0 : Nat := num / den
  let r : Nat := num % den
  let m : Nat := if den < 2 * r ∨ (2 * r = den ∧ m0 % 2 = 1) then m0 + 1 else m0
  if m = 2 ^ 53 then
    (if 971 ≤ q then none else some { m := 2 ^ 52, q := q + 1 })
  else if 971 < q then none
  else some { m := m, q := q }

/-- The decimal `n * 10 ^ e` rounded to binary64. -/
def roundDecimal (n : Nat) (e : Int) : Option Binary64 :=
  if 0 ≤ e then roundBinary64 (n * 10 ^ e.toNat) 1 else roundBinary64 n (10 ^ (-e).toNat)

/-- The decimal digits of `n`, most significant first, for `n` below
`10 ^ fuel`. -/
def natDigits : Nat → Nat → List Nat
  | 0, _ => []
  | fuel + 1, n => if n = 0 then [] else natDigits fuel (n / 10) ++ [n % 10]

/-- Strip leading zeros. -/
def dropLeadingZeros : List Nat → List Nat
  | [] => []
  | d :: ds => if d = 0 then dropLeadingZeros ds else d :: ds

/-- Decimal value of a digit list. -/
def digitsToNat (ds : List Nat) : Nat := ds.foldl (fun a d => 10 * a + d) 0

/-- Move `t` up while `10 ^ (t + 1) ≤ a / b`. -/
def raiseLog10 (a b : Nat) : Nat → Int → Int
  | 0, t => t
  | fuel + 1, t => if ltPow10 a b (t + 1) then t else raiseLog10 a b fuel (t + 1)

/-- Move `t` down while `a / b < 10 ^ t`. -/
def lowerLog10 (a b : Nat) : Nat → Int → Int
  | 0, t => t
  | fuel + 1, t => if ltPow10 a b t then lowerLog10 a b fuel (t - 1) else t

/-- The search of `Number::toString` for the shortest digit string: for
`k = start, start + 1, ...` take the two `k`-digit neighbours of `a / b` at
the scale `10 ^ (n - k)` and return the first that rounds to `x`, the nearer
one when both do, the even one on a tie. -/
def shortestFrom (x : Binary64) (a b : Nat) (n : Int) : Nat → Nat → Nat × Int
  | 0, k =>
    let p : Int := n - (k : Int)
    (if 0 ≤ p then a / (b * 10 ^ p.toNat) else a * 10 ^ (-p).toNat / b, p)
  | fuel + 1, k =>
    let p : Int := n - (k : Int)
    let num : Nat := if 0 ≤ p then a else a * 10 ^ (-p).toNat
    let den : Nat := if 0 ≤ p then b * 10 ^ p.toNat else b
    let lo : Nat := num / den
    let r : Nat := num % den
    let okLo : Bool := lo ≠ 0 ∧ roundDecimal lo p = some x
    let okHi : Bool := roundDecimal (lo + 1) p = some x
    if okLo ∧ okHi then
      (if 2 * r < den ∨ (2 * r = den ∧ lo % 2 = 0) then (lo, p) else (lo + 1, p))
    else if okLo then (lo, p)
    else if okHi then (lo + 1, p)
    else shortestFrom x a b n fuel (k + 1)

/-- The shortest decimal `(s, p)`, meaning `s * 10 ^ p`, that rounds to the
positive binary64 value `x`. -/
def shortestDecimal (x : Binary64) : Nat × Int :=
  let a : Nat := if 0 ≤ x.q then x.m * 2 ^ x.q.toNat else x.m
  let b : Nat := if 0 ≤ x.q then 1 else 2 ^ (-x.q).toNat
  let t0 : Int := ((bits x.m : Int) - 1 + x.q) * 30103 / 100000
  let t : Int := lowerLog10 a b 4 (raiseLog10 a b 4 t0)
  shortestFrom x a b (t + 1) 17 1

/-- The Number value of the decimal with digits `ds` times `10 ^ e`. -/
def mkNumber (neg : Bool) (ds : List Nat) (e : Int) : JsVal :=
  let n := digitsToNat ds
  if n = 0 then .num neg [] 0
  else
    match roundDecimal n e with
    | none => .inf neg
    | some x =>
      if x.m = 0 then .num neg [] 0
      else
        let sp := shortestDecimal x
        let digits := natDigits 40 sp.1
        let sig := (dropLeadingZeros digits.reverse).reverse
        .num neg sig (sp.2 + ((digits.length - sig.length : Nat) : Int))

/-! ## `JSON.stringify` -/

/-- Lower-case hexadecimal digit of a value below sixteen. -/
def hexDigit (n : Nat) : CodeUnit :=
  if n < 10 then cu (48 + n) else cu (87 + n)

/-- UnicodeEscape: a backslash, `u`, and four lower-case hexadecimal digits. -/
def unicodeEscape (n : Nat) : JSString :=
  [cu 92, cu 117, hexDigit (n / 4096), hexDigit (n / 256 % 16), hexDigit (n / 16 % 16),
    hexDigit (n % 16)]

/-- QuoteJSONString, one code unit that is not part of a surrogate pair: the
two-character escapes for backspace, tab, line feed, form feed, carriage
return, the double quote and the backslash; a unicode escape for the other
control characters and for a surrogate; the code unit itself otherwise. -/
def quoteUnit (c : CodeUnit) : JSString :=
  let n := c.val
  if n = 8 then [cu 92, cu 98]
  else if n = 9 then [cu 92, cu 116]
  else if n = 10 then [cu 92, cu 110]
  else if n = 12 then [cu 92, cu 102]
  else if n = 13 then [cu 92, cu 114]
  else if n = 34 then [cu 92, cu 34]
  else if n = 92 then [cu 92, cu 92]
  else if n < 32 then unicodeEscape n
  else if 55296 ≤ n ∧ n ≤ 57343 then unicodeEscape n
  else [c]

/-- QuoteJSONString, one code point: a surrogate pair is copied, a single code
unit is quoted. -/
def quotePoint (p : JSString) : JSString :=
  match p with
  | [a] => quoteUnit a
  | _ => p

/-- QuoteJSONString over the code points of a string. -/
def quoteUnits (s : JSString) : JSString := (codePoints s).flatMap quotePoint

/-- QuoteJSONString: the quoted code units between double quotes. -/
def quoteJSONString (s : JSString) : JSString :=
  cu 34 :: (quoteUnits s ++ [cu 34])

/-- The code unit of a decimal digit. -/
def digitUnit (d : Nat) : CodeUnit := cu (48 + d)

/-- The decimal text of a natural number. -/
def natText (n : Nat) : JSString := utf16 (Nat.repr n)

/-- Number::toString (radix 10) of the finite number `ds * 10^e` with sign
`neg`. -/
def numberToString (neg : Bool) (ds : List Nat) (e : Int) : JSString :=
  match ds with
  | [] => [cu 48]
  | d :: rest =>
    let k : Int := (ds.length : Int)
    let n : Int := k + e
    let sign : JSString := if neg then [cu 45] else []
    let body : JSString :=
      if k ≤ n ∧ n ≤ 21 then
        ds.map digitUnit ++ List.replicate (n - k).toNat (cu 48)
      else if 0 < n ∧ n ≤ 21 then
        (ds.take n.toNat).map digitUnit ++ cu 46 :: (ds.drop n.toNat).map digitUnit
      else if -6 < n ∧ n ≤ 0 then
        cu 48 :: cu 46 :: (List.replicate (-n).toNat (cu 48) ++ ds.map digitUnit)
      else
        let x : Int := n - 1
        let expo : JSString :=
          cu 101 :: (if x < 0 then cu 45 else cu 43) :: natText x.natAbs
        match rest with
        | [] => digitUnit d :: expo
        | _ :: _ => digitUnit d :: cu 46 :: (rest.map digitUnit ++ expo)
    sign ++ body

mutual
/-- SerializeJSONProperty without indentation.  A number that is not finite
is written `null`. -/
def stringifyVal : JsVal → JSString
  | .null => utf16 "null"
  | .bool b => if b then utf16 "true" else utf16 "false"
  | .num neg ds e => numberToString neg ds e
  | .inf _ => utf16 "null"
  | .str s => quoteJSONString s
  | .arr vs => cu 91 :: (stringifyElems vs ++ [cu 93])
  | .obj fs => cu 123 :: (stringifyFields fs ++ [cu 125])
/-- SerializeJSONArray: the elements separated by commas. -/
def stringifyElems : List JsVal → JSString
  | [] => []
  | v :: vs =>
    match vs with
    | [] => stringifyVal v
    | _ :: _ => stringifyVal v ++ cu 44 :: stringifyElems vs
/-- SerializeJSONObject: the quoted key, a colon and the value of each
property, separated by commas. -/
def stringifyFields : List (JSString × JsVal) → JSString
  | [] => []
  | (k, v) :: fs =>
    match fs with
    | [] => quoteJSONString k ++ cu 58 :: stringifyVal v
    | _ :: _ =>
      quoteJSONString k ++ cu 58 :: (stringifyVal v ++ cu 44 :: stringifyFields fs)
end

/-- The built-in `JSON.stringify(value)`. -/
def JSON.stringify (v : JsVal) : JSString := stringifyVal v

/-! ## `JSON.parse` -/

/-- JSON white space: tab, line feed, carriage return, space. -/
def isWs (c : CodeUnit) : Bool :=
  c.val = 32 || c.val = 9 || c.val = 10 || c.val = 13

/-- Drop leading JSON white space. -/
def skipWs : JSString → JSString
  | [] => []
  | c :: cs => if isWs c then skipWs cs else c :: cs

/-- Decimal digit test. -/
def isDigit (c : CodeUnit) : Bool := 48 ≤ c.val && c.val ≤ 57

/-- The longest run of decimal digits at the head of the input, as digit
values, and the rest. -/
def takeDigits : JSString → List Nat × JSString
  | [] => ([], [])
  | c :: cs =>
    if isDigit c then ((c.val - 48) :: (takeDigits cs).1, (takeDigits cs).2)
    else ([], c :: cs)

/-- Value of a hexadecimal digit, either case. -/
def hexVal (c : CodeUnit) : Option Nat :=
  let n := c.val
  if 48 ≤ n ∧ n ≤ 57 then some (n - 48)
  else if 97 ≤ n ∧ n ≤ 102 then some (n - 87)
  else if 65 ≤ n ∧ n ≤ 70 then some (n - 55)
  else none

/-- Value of four hexadecimal digits. -/
def hex4 (a b c d : CodeUnit) : Option Nat :=
  match hexVal a, hexVal b, hexVal c, hexVal d with
  | some x, some y, some z, some w => some (x * 4096 + y * 256 + z * 16 + w)
  | _, _, _, _ => none

/-- The code unit named by a single-character escape. -/
def unescape (c : CodeUnit) : Option CodeUnit :=
  let n := c.val
  if n = 34 then some (cu 34)
  else if n = 92 then some (cu 92)
  else if n = 47 then some (cu 47)
  else if n = 98 then some (cu 8)
  else if n = 102 then some (cu 12)
  else if n = 110 then some (cu 10)
  else if n = 114 then some (cu 13)
  else if n = 116 then some (cu 9)
  else none

/-- The code units of a JSON string after its opening quote, up to and
including the closing quote: the decoded string and the rest of the input.  A
unicode escape gives the code unit it names, surrogate or not.  The first
argument bounds the number of characters and escapes read. -/
def parseStringTail : Nat → JSString → Option (JSString × JSString)
  | 0, _ => none
  | _ + 1, [] => none
  | fuel + 1, c :: cs =>
    if c.val = 34 then some ([], cs)
    else if c.val = 92 then
      match cs with
      | [] => none
      | e :: cs1 =>
        if e.val = 117 then
          match cs1 with
          | h1 :: h2 :: h3 :: h4 :: cs2 =>
            match hex4 h1 h2 h3 h4 with
            | none => none
            | some h => (parseStringTail fuel cs2).map fun p => (cu h :: p.1, p.2)
          | _ => none
        else
          match unescape e with
          | none => none
          | some ch => (parseStringTail fuel cs1).map fun p => (ch :: p.1, p.2)
    else if c.val < 32 then none
    else (parseStringTail fuel cs).map fun p => (c :: p.1, p.2)

/-- The optional exponent part of a number: the exponent and the rest. -/
def parseExponent : JSString → Option (Int × JSString)
  | [] => some (0, [])
  | c :: cs =>
    if c.val = 101 ∨ c.val = 69 then
      match cs with
      | [] => none
      | s :: cs1 =>
        if s.val = 43 then
          match takeDigits cs1 with
          | ([], _) => none
          | (ds, rest) => some ((digitsToNat ds : Int), rest)
        else if s.val = 45 then
          match takeDigits cs1 with
          | ([], _) => none
          | (ds, rest) => some (-(digitsToNat ds : Int), rest)
        else
          match takeDigits cs with
          | ([], _) => none
          | (ds, rest) => some ((digitsToNat ds : Int), rest)
    else some (0, c :: cs)

/-- The optional fraction part of a number: its digits and the rest. -/
def parseFraction : JSString → Option (List Nat × JSString)
  | [] => some ([], [])
  | c :: cs =>
    if c.val = 46 then
      match takeDigits cs with
      | ([], _) => none
      | (ds, rest) => some (ds, rest)
    else some ([], c :: cs)

/-- An unsigned JSON number: integer part (a lone zero, or digits not
starting with zero), optional fraction, optional exponent. -/
def parseUnsigned (neg : Bool) (cs : JSString) : Option (JsVal × JSString) :=
  match cs with
  | [] => none
  | c :: rest =>
    if ¬ isDigit c then none
    else
      let ip : List Nat × JSString :=
        if c.val = 48 then ([0], rest) else takeDigits (c :: rest)
      match parseFraction ip.2 with
      | none => none
      | some (fs, r1) =>
        match parseExponent r1 with
        | none => none
        | some (e, r2) => some (mkNumber neg (ip.1 ++ fs) (e - (fs.length : Int)), r2)

/-- A JSON number with its optional minus sign. -/
def parseNumber : JSString → Option (JsVal × JSString)
  | [] => none
  | c :: rest => if c.val = 45 then parseUnsigned true rest else parseUnsigned false (c :: rest)

/-- Strip the given literal from the head of the input. -/
def stripLiteral : JSString → JSString → Option JSString
  | [], cs => some cs
  | _ :: _, [] => none
  | l :: ls, c :: cs => if l = c then stripLiteral ls cs else none

/-- The integer named by a property key that is an array index: a canonical
numeric string below `2^32 - 1`. -/
def arrayIndex (k : JSString) : Option Nat :=
  match k with
  | [] => none
  | c :: cs =>
    if (c :: cs).all isDigit ∧ (c.val = 48 → cs = []) then
      let n := digitsToNat ((c :: cs).map fun x => x.val - 48)
      if n < 4294967295 then some n else none
    else none

/-- Replace the value of the first property named `k`. -/
def replaceField (k : JSString) (v : JsVal) : List (JSString × JsVal) → List (JSString × JsVal)
  | [] => []
  | (k1, v1) :: fs => if k1 = k then (k1, v) :: fs else (k1, v1) :: replaceField k v fs

/-- Place a new array-index property among the index properties, ascending. -/
def insertIndexField (i : Nat) (k : JSString) (v : JsVal) :
    List (JSString × JsVal) → List (JSString × JsVal)
  | [] => [(k, v)]
  | (k1, v1) :: fs =>
    match arrayIndex k1 with
    | some j => if j < i then (k1, v1) :: insertIndexField i k v fs else (k, v) :: (k1, v1) :: fs
    | none => (k, v) :: (k1, v1) :: fs

/-- CreateDataProperty on an ordinary object: an existing key keeps its
place and takes the new value; a new array-index key goes among the index
keys in ascending order; any other new key goes last. -/
def defineField (fs : List (JSString × JsVal)) (k : JSString) (v : JsVal) :
    List (JSString × JsVal) :=
  if fs.any (fun p => p.1 = k) then replaceField k v fs
  else
    match arrayIndex k with
    | some i => insertIndexField i k v fs
    | none => fs ++ [(k, v)]

mutual
/-- A JSON value at the head of the input (no leading white space). -/
def parseValue : Nat → JSString → Option (JsVal × JSString)
  | 0, _ => none
  | _ + 1, [] => none
  | fuel + 1, c :: rest =>
    if c.val = 123 then
      match skipWs rest with
      | [] => none
      | c1 :: r1 =>
        if c1.val = 125 then some (.obj [], r1)
        else (parseMembers fuel [] (c1 :: r1)).map fun p => (.obj p.1, p.2)
    else if c.val = 91 then
      match skipWs rest with
      | [] => none
      | c1 :: r1 =>
        if c1.val = 93 then some (.arr [], r1)
        else (parseElems fuel (c1 :: r1)).map fun p => (.arr p.1, p.2)
    else if c.val = 34 then
      (parseStringTail (rest.length + 1) rest).map fun p => (.str p.1, p.2)
    else if c.val = 116 then
      (stripLiteral (utf16 "true") (c :: rest)).map fun r => (.bool true, r)
    else if c.val = 102 then
      (stripLiteral (utf16 "false") (c :: rest)).map fun r => (.bool false, r)
    else if c.val = 110 then
      (stripLiteral (utf16 "null") (c :: rest)).map fun r => (.null, r)
    else parseNumber (c :: rest)
/-- The elements of a non-empty array up to and including the closing
bracket. -/
def parseElems : Nat → JSString → Option (List JsVal × JSString)
  | 0, _ => none
  | fuel + 1, cs =>
    match parseValue fuel cs with
    | none => none
    | some (v, r) =>
      match skipWs r with
      | [] => none
      | c :: r1 =>
        if c.val = 44 then (parseElems fuel (skipWs r1)).map fun p => (v :: p.1, p.2)
        else if c.val = 93 then some ([v], r1)
        else none
/-- The members of a non-empty object up to and including the closing brace,
added to the properties read so far. -/
def parseMembers : Nat → List (JSString × JsVal) → JSString →
    Option (List (JSString × JsVal) × JSString)
  | 0, _, _ => none
  | _ + 1, _, [] => none
  | fuel + 1, acc, q :: cs =>
    if q.val = 34 then
      match parseStringTail (cs.length + 1) cs with
      | none => none
      | some (k, r) =>
        match skipWs r with
        | [] => none
        | c :: r1 =>
          if c.val = 58 then
            match parseValue fuel (skipWs r1) with
            | none => none
            | some (v, r2) =>
              match skipWs r2 with
              | [] => none
              | c2 :: r3 =>
                if c2.val = 44 then parseMembers fuel (defineField acc k v) (skipWs r3)
                else if c2.val = 125 then some (defineField acc k v, r3)
                else none
          else none
    else none
end

/-- The built-in `JSON.parse(text)`: white space, one value, white space, end
of input; a `SyntaxError` otherwise. -/
def JSON.parse (text : JSString) : Except JSError JsVal :=
  match parseValue (text.length + 1) (skipWs text) with
  | none => .error .syntaxError
  | some (v, r) =>
    match skipWs r with
    | [] => .ok v
    | _ :: _ => .error .syntaxError

/-! ## `Set`, `ToString`, `encodeURIComponent` -/

/-- SameValueZero on parsed values: the two zeros are the same value.  Arrays
and objects are compared by identity, and every array or object that
`JSON.parse` creates is a fresh one. -/
def sameValueZero : JsVal → JsVal → Bool
  | .null, .null => true
  | .bool a, .bool b => a == b
  | .num n1 d1 e1, .num n2 d2 e2 => d1 == d2 && e1 == e2 && (n1 == n2 || d1 == [])
  | .inf a, .inf b => a == b
  | .str a, .str b => a == b
  | _, _ => false

/-- A `Set`: its elements in insertion order. -/
abbrev JSSet := List JsVal

/-- The method `Set.prototype.has`. -/
def JSSet.has (s : JSSet) (v : JsVal) : Bool := s.any fun x => sameValueZero x v

/-- The value `Set.prototype.add` stores: negative zero becomes positive
zero. -/
def plusZero : JsVal → JsVal
  | .num true [] e => .num false [] e
  | v => v

/-- The method `Set.prototype.add`: a new value goes last. -/
def JSSet.add (s : JSSet) (v : JsVal) : JSSet := if s.has v then s else s ++ [plusZero v]

/-- The method `Set.prototype.delete`. -/
def JSSet.delete (s : JSSet) (v : JsVal) : JSSet := s.filter fun x => !sameValueZero x v

/-- The constructor `new Set(iterable)`: `null` gives the empty set, an array
its elements, a string its code points; anything else is not iterable. -/
def JSSet.new : JsVal → Except JSError JSSet
  | .null => .ok []
  | .arr vs => .ok (vs.foldl JSSet.add [])
  | .str s => .ok (((codePoints s).map JsVal.str).foldl JSSet.add [])
  | .bool _ => .error .typeError
  | .num _ _ _ => .error .typeError
  | .inf _ => .error .typeError
  | .obj _ => .error .typeError

/-- The function `Array.from(set)`. -/
def Array.ofSet (s : JSSet) : List JsVal := s

mutual
/-- The abstract operation ToString on a parsed value. -/
def toStringVal : JsVal → JSString
  | .null => utf16 "null"
  | .bool b => if b then utf16 "true" else utf16 "false"
  | .num neg ds e => numberToString neg ds e
  | .inf neg => if neg then utf16 "-Infinity" else utf16 "Infinity"
  | .str s => s
  | .arr vs => joinVals vs
  | .obj _ => utf16 "[object Object]"
/-- The method `Array.prototype.join` with a comma: `null` elements give the
empty string. -/
def joinVals : List JsVal → JSString
  | [] => []
  | v :: vs =>
    let head : JSString := match v with
      | .null => []
      | .bool b => toStringVal (.bool b)
      | .num neg ds e => toStringVal (.num neg ds e)
      | .inf neg => toStringVal (.inf neg)
      | .str s => toStringVal (.str s)
      | .arr ws => joinVals ws
      | .obj fs => toStringVal (.obj fs)
    match vs with
    | [] => head
    | _ :: _ => head ++ cu 44 :: joinVals vs
end

/-- Upper-case hexadecimal digit of a value below sixteen. -/
def upperHexDigit (n : Nat) : CodeUnit :=
  if n < 10 then cu (48 + n) else cu (55 + n)

/-- UTF-8 encoding of a code point. -/
def utf8Bytes (n : Nat) : List Nat :=
  if n < 128 then [n]
  else if n < 2048 then [192 + n / 64, 128 + n % 64]
  else if n < 65536 then [224 + n / 4096, 128 + n / 64 % 64, 128 + n % 64]
  else [240 + n / 262144, 128 + n / 4096 % 64, 128 + n / 64 % 64, 128 + n % 64]

/-- The percent escapes of the UTF-8 bytes of a code point. -/
def percentEncode (n : Nat) : JSString :=
  (utf8Bytes n).flatMap fun b => [cu 37, upperHexDigit (b / 16), upperHexDigit (b % 16)]

/-- Code units `encodeURIComponent` leaves alone: letters, digits and
`- _ . ! ~ * ' ( )`. -/
def isUnreserved (c : CodeUnit) : Bool :=
  let n := c.val
  (65 ≤ n && n ≤ 90) || (97 ≤ n && n ≤ 122) || (48 ≤ n && n ≤ 57) ||
    n = 45 || n = 95 || n = 46 || n = 33 || n = 126 || n = 42 || n = 39 || n = 40 || n = 41

/-- A code unit that is a surrogate. -/
def isSurrogate (c : CodeUnit) : Bool := isHighSurrogate c || isLowSurrogate c

/-- Encode of `encodeURIComponent` for one code point: a surrogate on its own
raises a `URIError`. -/
def encodePoint (p : JSString) : Except JSError JSString :=
  match p with
  | [a] =>
    if isSurrogate a then .error .uriError
    else if isUnreserved a then .ok [a]
    else .ok (percentEncode a.val)
  | [hi, lo] => .ok (percentEncode (65536 + (hi.val - 55296) * 1024 + (lo.val - 56320)))
  | _ => .error .uriError

/-- Encode over a list of code points, left to right. -/
def encodePoints : List JSString → Except JSError JSString
  | [] => .ok []
  | p :: ps =>
    match encodePoint p with
    | .error e => .error e
    | .ok x =>
      match encodePoints ps with
      | .error e => .error e
      | .ok y => .ok (x ++ y)

/-- The built-in `encodeURIComponent`. -/
def encodeURIComponent (s : JSString) : Except JSError JSString :=
  encodePoints (codePoints s)

/-- The method `String.prototype.isWellFormed`: no surrogate stands on its
own. -/
def isWellFormed (s : JSString) : Bool :=
  (codePoints s).all fun p =>
    match p with
    | [a] => !isSurrogate a
    | _ => true

/-! ## Browser state -/

/-- The `localStorage` area: the value stored under each key, if any. -/
abbrev Storage := JSString → Option JSString

/-- The method `localStorage.getItem`. -/
def Storage.getItem (s : Storage) (key : JSString) : Option JSString := s key

/-- The method `localStorage.setItem`. -/
def Storage.setItem (s : Storage) (key value : JSString) : Storage :=
  fun k => if k = key then some value else s k

/-- A document element: attributes, class list, and content. -/
structure Element where
  attrs : List (JSString × JSString)
  classList : List JSString
  content : JSString
  deriving DecidableEq, Repr

/-- The method `Element.getAttribute`: `none` stands for `null`. -/
def Element.getAttribute (e : Element) (name : JSString) : Option JSString :=
  (e.attrs.find? fun p => p.1 = name).map fun p => p.2

/-- Attribute selector `[name]`. -/
def Element.hasAttribute (e : Element) (name : JSString) : Bool :=
  e.attrs.any fun p => p.1 = name

/-- The method `classList.toggle(name, force)`. -/
def classToggle (cl : List JSString) (name : JSString) (force : Bool) : List JSString :=
  if force then (if name ∈ cl then cl else cl ++ [name]) else cl.filter fun c => c ≠ name

/-- An outgoing `fetch` request. -/
structure Request where
  url : JSString
  method : JSString
  headers : List (JSString × JSString)
  body : JSString
  deriving DecidableEq, Repr

/-- An HTTP response: status code and body text (the body decoded as UTF-8,
a byte order mark kept as U+FEFF). -/
structure Response where
  status : Nat
  body : JSString
  deriving DecidableEq, Repr

/-- The property `Response.ok`: a status in the range 200 to 299. -/
def Response.ok (r : Response) : Bool := 200 ≤ r.status && r.status ≤ 299

/-- Drop a leading byte order mark. -/
def stripBOM : JSString → JSString
  | [] => []
  | c :: cs => if c.val = 65279 then cs else c :: cs

/-- The method `Response.json()`: the body text without a leading byte order
mark, parsed as JSON. -/
def Response.json (r : Response) : Except JSError JsVal := JSON.parse (stripBOM r.body)

/-- What a `fetch` call settles to: a response, or a network failure, on
which the promise is rejected with a `TypeError`. -/
inductive FetchResult where
  | response (r : Response)
  | networkFailure
  deriving DecidableEq, Repr

/-- The browser state the module reads and writes. -/
structure State where
  localStorage : Storage
  document : List Element
  href : JSString
  alerts : List JSString
  requests : List Request

/-- Apply `f` to the first element that satisfies `p`. -/
def updateFirst (p : Element → Bool) (f : Element → Element) : List Element → List Element
  | [] => []
  | e :: es => if p e then f e :: es else e :: updateFirst p f es

/-- Assign the content of the element `document.getElementById(id)`, when
there is one. -/
def setContentById (doc : List Element) (id : JSString) (text : JSString) : List Element :=
  updateFirst (fun e => e.getAttribute (utf16 "id") = some id) (fun e => { e with content := text }) doc

/-- The value `x || d` for a storage read `x`: `null` and the empty string
are falsy. -/
def orDefault (x : Option JSString) (d : JSString) : JSString :=
  match x with
  | none => d
  | some s => if s = [] then d else s

/-! ## The module `static/app.js` -/

/-- The constant `storeKey`. -/
def storeKey : JSString := utf16 "myuni:favorites"

/-- The constant `cityKey`. -/
def cityKey : JSString := utf16 "myuni:city"

/-- A step of the module: the state it leaves and the exception it raised,
if any. -/
abbrev Outcome := State × Option JSError

/-- The function `getFavs`: parse the stored favourites, an absent or empty
value reading as `[]`; a parse failure is caught and gives `[]`. -/
def getFavs (st : State) : JsVal :=
  match JSON.parse (orDefault (st.localStorage.getItem storeKey) (utf16 "[]")) with
  | .ok v => v
  | .error _ => .arr []

/-- The text `el.textContent = x.length` leaves, for a value `x`: reading
`length` of `null` raises a `TypeError`; an `undefined` or `null` length gives
the empty text. -/
def lengthText : JsVal → Except JSError JSString
  | .null => .error .typeError
  | .arr vs => .ok (natText vs.length)
  | .str s => .ok (natText s.length)
  | .bool _ => .ok []
  | .num _ _ _ => .ok []
  | .inf _ => .ok []
  | .obj fs =>
    match fs.find? fun p => p.1 = utf16 "length" with
    | none => .ok []
    | some (_, .null) => .ok []
    | some (_, v) => .ok (toStringVal v)

/-- The effect of `renderFavBadges` on one element of the document: an
element that matches `[data-fav-count]` gets the text `n`. -/
def renderBadge (n : JSString) (el : Element) : Element :=
  if el.hasAttribute (utf16 "data-fav-count") then { el with content := n } else el

/-- The function `renderFavBadges`: write the number of favourites into every
`[data-fav-count]` element. -/
def renderFavBadges (st : State) : Outcome :=
  match lengthText (getFavs st) with
  | .error e => (st, some e)
  | .ok n => ({ st with document := st.document.map (renderBadge n) }, none)

/-- The function `setFavs`: store the serialised list, then re-render the
badges. -/
def setFavs (st : State) (list : List JsVal) : Outcome :=
  renderFavBadges
    { st with localStorage := st.localStorage.setItem storeKey (JSON.stringify (.arr list)) }

/-- The value `btn.getAttribute('data-slug')` of an element. -/
def slugOf (btn : Element) : JsVal :=
  match btn.getAttribute (utf16 "data-slug") with
  | some s => .str s
  | none => .null

/-- The body of the `forEach` in `updateCardButtons` for one button. -/
def syncButton (favs : JSSet) (btn : Element) : Element :=
  let active := favs.has (slugOf btn)
  { btn with
    classList := classToggle (classToggle btn.classList (utf16 "btn-outline-danger") (!active))
      (utf16 "btn-danger") active
    content := if active then utf16 "♥ Saved" else utf16 "♡ Save" }

/-- The effect of `updateCardButtons` on one element of the document: an
element that matches `[data-fav-btn]` is synchronised. -/
def syncCard (favs : JSSet) (el : Element) : Element :=
  if el.hasAttribute (utf16 "data-fav-btn") then syncButton favs el else el

/-- The function `updateCardButtons`: re-scan every `[data-fav-btn]` element
against the stored favourites. -/
def updateCardButtons (st : State) : Outcome :=
  match JSSet.new (getFavs st) with
  | .error e => (st, some e)
  | .ok favs => ({ st with document := st.document.map (syncCard favs) }, none)

/-- The function `toggleFav`. -/
def toggleFav (st : State) (slug : JSString) : Outcome :=
  match JSSet.new (getFavs st) with
  | .error e => (st, some e)
  | .ok list =>
    let list1 :=
      if list.has (.str slug) then list.delete (.str slug) else list.add (.str slug)
    match setFavs st (Array.ofSet list1) with
    | (st1, some e) => (st1, some e)
    | (st1, none) => updateCardButtons st1

/-- The function `getCity`. -/
def getCity (st : State) : JSString :=
  orDefault (st.localStorage.getItem cityKey) []

/-- Arguments `setCity` is called with: a string, `null`, or nothing. -/
inductive CityArg where
  | str (s : JSString)
  | null
  | undefined
  deriving DecidableEq, Repr

/-- The value `city || d`. -/
def CityArg.orDefault (city : CityArg) (d : JSString) : JSString :=
  match city with
  | .str s => if s = [] then d else s
  | .null => d
  | .undefined => d

/-- Truthiness of the argument. -/
def CityArg.truthy : CityArg → Bool
  | .str s => s ≠ []
  | .null => false
  | .undefined => false

/-- The function `setCity`. -/
def setCity (st : State) (city : CityArg) : State :=
  let doc1 := setContentById st.document (utf16 "selectedCity") (city.orDefault (utf16 "None"))
  let doc2 :=
    if city.truthy then setContentById doc1 (utf16 "cityDropdownBtn") (city.orDefault []) else doc1
  { st with
    localStorage := st.localStorage.setItem cityKey (city.orDefault [])
    document := doc2 }

/-- The method `MyUni.changeCity`. -/
def changeCity (st : State) (city : CityArg) : State := setCity st city

/-- The method `MyUni.browseUniversities`: without a city, alert and return;
otherwise evaluate the address, which raises when `encodeURIComponent` does,
and assign it. -/
def browseUniversities (st : State) : Outcome :=
  let city := getCity st
  if city = [] then
    ({ st with alerts := st.alerts ++ [utf16 "Please select a city first!"] }, none)
  else
    match encodeURIComponent city with
    | .error e => (st, some e)
    | .ok enc => ({ st with href := utf16 "/universities?city=" ++ enc }, none)

/-- The method `MyUni.toggleFavorite`. -/
def toggleFavorite (st : State) (slug : JSString) : Outcome := toggleFav st slug

/-- The method `MyUni.getFavorites`. -/
def getFavorites (st : State) : JsVal := getFavs st

/-- The request `saveList` sends. -/
def saveRequest (st : State) (name email note : JSString) : Request :=
  { url := utf16 "/api/save"
    method := utf16 "POST"
    headers := [(utf16 "Content-Type", utf16 "application/json")]
    body := JSON.stringify (.obj [(utf16 "name", .str name), (utf16 "email", .str email),
      (utf16 "note", .str note), (utf16 "city", .str (getCity st)),
      (utf16 "favorites", getFavs st)]) }

/-- The method `MyUni.saveList`, against a server that settles each request:
the state after the call and what the returned promise settles to. -/
def saveList (server : Request → FetchResult) (st : State) (name email note : JSString) :
    State × Except JSError JsVal :=
  let req := saveRequest st name email note
  let st1 := { st with requests := st.requests ++ [req] }
  match server req with
  | .networkFailure => (st1, .error .typeError)
  | .response res =>
    if ¬ res.ok then (st1, .error (.error (utf16 "Failed to save")))
    else (st1, res.json)

/-! ## Public operations and reachable states -/

/-- Storage with nothing in it. -/
def emptyStorage : Storage := fun _ => none

/-- A call of one of the public operations of `window.MyUni`. -/
inductive Op where
  | toggleFavorite (slug : JSString)
  | getFavorites
  | changeCity (city : CityArg)
  | browseUniversities
  | saveList (server : Request → FetchResult) (name email note : JSString)

/-- The state a call leaves behind, whether or not it raised. -/
def step (st : State) : Op → State
  | .toggleFavorite slug => (toggleFavorite st slug).1
  | .getFavorites => st
  | .changeCity city => changeCity st city
  | .browseUniversities => (browseUniversities st).1
  | .saveList server name email note => (saveList server st name email note).1

/-- States reached from empty storage by a sequence of public operations. -/
inductive Reachable : State → Prop where
  | init (st : State) (h : st.localStorage = emptyStorage) : Reachable st
  | step (st : State) (op : Op) (h : Reachable st) : Reachable (step st op)

/-! ## List-level counterparts used in the statements -/

/-- First occurrences of a list of identifiers, in order. -/
def dedupe (l : List JSString) : List JSString :=
  l.foldl (fun acc x => if x ∈ acc then acc else acc ++ [x]) []

/-- The membership flip on a list of identifiers. -/
def toggleList (l : List JSString) (s : JSString) : List JSString :=
  if s ∈ dedupe l then (dedupe l).filter (fun x => x ≠ s) else dedupe l ++ [s]

/-- The value `getAttribute('data-slug')` of an element is a member of the
list of identifiers. -/
def slugIn (e : Element) (l : List JSString) : Prop :=
  ∃ s, e.getAttribute (utf16 "data-slug") = some s ∧ s ∈ l

/-! ## Example states -/

/-- A page with two favourite buttons and a count badge. -/
def exampleDocument : List Element :=
  [ { attrs := [(utf16 "data-fav-btn", []), (utf16 "data-slug", utf16 "alpha")],
      classList := [utf16 "btn", utf16 "btn-outline-danger"], content := utf16 "♡ Save" },
    { attrs := [(utf16 "data-fav-btn", []), (utf16 "data-slug", utf16 "beta")],
      classList := [utf16 "btn", utf16 "btn-danger"], content := utf16 "♥ Saved" },
    { attrs := [(utf16 "data-fav-count", [])], classList := [utf16 "badge"], content := utf16 "1" },
    { attrs := [(utf16 "id", utf16 "selectedCity")], classList := [], content := utf16 "None" } ]

/-- A state with the given stored favourites and city. -/
def exampleState (favs city : Option JSString) : State :=
  { localStorage := fun k => if k = storeKey then favs else if k = cityKey then city else none
    document := exampleDocument
    href := utf16 "/"
    alerts := []
    requests := [] }

/-- A server that answers every request with the given status and body. -/
def constServer (status : Nat) (body : JSString) : Request → FetchResult :=
  fun _ => .response { status := status, body := body }

/-! ## Reading back what `JSON.stringify` wrote -/

theorem cu_val (c : CodeUnit) : cu c.val = c := by
  apply Fin.ext
  show c.val % 65536 = c.val
  omega

theorem unit_eq_of_val {c : CodeUnit} {n : Nat} (h : c.val = n) : c = cu n := by
  rw [← h, cu_val]

theorem hexVal_hexDigit : ∀ d : Fin 16, hexVal (hexDigit d.val) = some d.val := by
  decide

theorem hex4_unicodeEscape (n : Nat) (h : n < 65536) :
    hex4 (hexDigit (n / 4096)) (hexDigit (n / 256 % 16)) (hexDigit (n / 16 % 16))
      (hexDigit (n % 16)) = some n := by
  have h1 := hexVal_hexDigit ⟨n / 4096, by omega⟩
  have h2 := hexVal_hexDigit ⟨n / 256 % 16, by omega⟩
  have h3 := hexVal_hexDigit ⟨n / 16 % 16, by omega⟩
  have h4 := hexVal_hexDigit ⟨n % 16, by omega⟩
  simp only [] at h1 h2 h3 h4
  unfold hex4
  rw [h1, h2, h3, h4]
  simp only [Option.some.injEq]
  omega

theorem parseStringTail_unicodeEscape (fuel : Nat) (c : CodeUnit) (tail : JSString) :
    parseStringTail (fuel + 1) (unicodeEscape c.val ++ tail) =
      (parseStringTail fuel tail).map fun p => (c :: p.1, p.2) := by
  have e1 : (cu 92).val = 92 := by decide
  have e2 : (cu 117).val = 117 := by decide
  show parseStringTail (fuel + 1) (cu 92 :: cu 117 :: hexDigit (c.val / 4096) ::
    hexDigit (c.val / 256 % 16) :: hexDigit (c.val / 16 % 16) :: hexDigit (c.val % 16) :: tail) = _
  simp only [parseStringTail, e1, e2]
  rw [hex4_unicodeEscape c.val c.isLt]
  simp [cu_val]

theorem parseStringTail_literal (fuel : Nat) (c : CodeUnit) (tail : JSString)
    (h1 : c.val ≠ 34) (h2 : c.val ≠ 92) (h3 : ¬ c.val < 32) :
    parseStringTail (fuel + 1) (c :: tail) =
      (parseStringTail fuel tail).map fun p => (c :: p.1, p.2) := by
  simp only [parseStringTail]
  simp [h1, h2, h3]

theorem parseStringTail_quoteUnit (fuel : Nat) (c : CodeUnit) (tail : JSString) :
    parseStringTail (fuel + 1) (quoteUnit c ++ tail) =
      (parseStringTail fuel tail).map fun p => (c :: p.1, p.2) := by
  unfold quoteUnit
  simp only []
  split_ifs with h1 h2 h3 h4 h5 h6 h7 h8 h9
  · cases unit_eq_of_val h1; rfl
  · cases unit_eq_of_val h2; rfl
  · cases unit_eq_of_val h3; rfl
  · cases unit_eq_of_val h4; rfl
  · cases unit_eq_of_val h5; rfl
  · cases unit_eq_of_val h6; rfl
  · cases unit_eq_of_val h7; rfl
  · exact parseStringTail_unicodeEscape fuel c tail
  · exact parseStringTail_unicodeEscape fuel c tail
  · exact parseStringTail_literal fuel c tail h6 h7 h8

theorem parseStringTail_quoted (rest : JSString) (cs : JSString) :
    ∀ (pend : Option CodeUnit) (fuel : Nat),
      (∀ hi, pend = some hi → isHighSurrogate hi = true ∧ startsWithLow cs = true) →
      (pend.toList ++ cs).length + 1 ≤ fuel →
      parseStringTail fuel ((codePointsFrom pend cs).flatMap quotePoint ++ cu 34 :: rest) =
        some (pend.toList ++ cs, rest) := by
  induction cs with
  | nil =>
    intro pend fuel hp hf
    cases pend with
    | none =>
      obtain ⟨f, rfl⟩ : ∃ f, fuel = f + 1 := ⟨fuel - 1, by simp at hf; omega⟩
      rfl
    | some hi =>
      have := (hp hi rfl).2
      simp [startsWithLow] at this
  | cons a cs ih =>
    intro pend fuel hp hf
    cases pend with
    | some hi =>
      obtain ⟨hhi, hlo⟩ := hp hi rfl
      obtain ⟨f, rfl⟩ : ∃ f, fuel = f + 2 := ⟨fuel - 2, by simp at hf; omega⟩
      have hf2 : ((none : Option CodeUnit).toList ++ cs).length + 1 ≤ f := by simp at hf ⊢; omega
      simp only [isHighSurrogate, Bool.and_eq_true, decide_eq_true_eq] at hhi
      simp only [startsWithLow, isLowSurrogate, Bool.and_eq_true, decide_eq_true_eq] at hlo
      show parseStringTail (f + 1 + 1)
        (hi :: a :: ((codePointsFrom none cs).flatMap quotePoint ++ cu 34 :: rest)) = _
      rw [parseStringTail_literal _ hi _ (by omega) (by omega) (by omega),
        parseStringTail_literal _ a _ (by omega) (by omega) (by omega),
        ih none f (by intro hi h; cases h) hf2]
      rfl
    | none =>
      obtain ⟨f, rfl⟩ : ∃ f, fuel = f + 1 := ⟨fuel - 1, by simp at hf; omega⟩
      by_cases hpair : isHighSurrogate a = true ∧ startsWithLow cs = true
      · have e : codePointsFrom none (a :: cs) = codePointsFrom (some a) cs := by
          simp only [codePointsFrom, hpair, and_self, if_true]
        rw [e]
        exact ih (some a) (f + 1) (by intro hi h; cases h; exact hpair) (by simpa using hf)
      · have e : codePointsFrom none (a :: cs) = [a] :: codePointsFrom none cs := by
          simp only [codePointsFrom, hpair, if_false]
        have hf2 : ((none : Option CodeUnit).toList ++ cs).length + 1 ≤ f := by
          simp at hf ⊢; omega
        rw [e, List.flatMap_cons, List.append_assoc]
        show parseStringTail (f + 1) (quoteUnit a ++ _) = _
        rw [parseStringTail_quoteUnit, ih none f (by intro hi h; cases h) hf2]
        rfl

theorem unicodeEscape_length (n : Nat) : (unicodeEscape n).length = 6 := rfl

theorem quoteUnit_length (c : CodeUnit) : 1 ≤ (quoteUnit c).length := by
  unfold quoteUnit
  simp only []
  split_ifs <;> simp [unicodeEscape_length]

theorem quoted_length (cs : JSString) :
    ∀ pend : Option CodeUnit,
      (pend.toList ++ cs).length ≤ ((codePointsFrom pend cs).flatMap quotePoint).length := by
  induction cs with
  | nil =>
    intro pend
    cases pend with
    | none => simp [codePointsFrom]
    | some hi =>
      have := quoteUnit_length hi
      simpa [codePointsFrom, quotePoint] using this
  | cons a cs ih =>
    intro pend
    cases pend with
    | some hi =>
      have h := ih none
      have h2 : (quotePoint [hi, a]).length = 2 := rfl
      rw [codePointsFrom, List.flatMap_cons]
      simp only [Option.toList, List.nil_append, List.singleton_append, List.length_cons,
        List.length_append, List.length_nil] at h ⊢
      omega
    | none =>
      by_cases hpair : isHighSurrogate a = true ∧ startsWithLow cs = true
      · have e : codePointsFrom none (a :: cs) = codePointsFrom (some a) cs := by
          simp only [codePointsFrom, hpair, and_self, if_true]
        have h := ih (some a)
        rw [e]
        simpa using h
      · have e : codePointsFrom none (a :: cs) = [a] :: codePointsFrom none cs := by
          simp only [codePointsFrom, hpair, if_false]
        have h := ih none
        have h2 := quoteUnit_length a
        have h3 : quotePoint [a] = quoteUnit a := rfl
        rw [e, List.flatMap_cons, h3]
        simp only [Option.toList, List.nil_append, List.length_cons, List.length_append,
          List.length_nil] at h ⊢
        omega

theorem parseValue_quoted (fuel : Nat) (s : JSString) (rest : JSString) :
    parseValue (fuel + 1) (quoteJSONString s ++ rest) = some (.str s, rest) := by
  show parseValue (fuel + 1) (cu 34 :: ((quoteUnits s ++ [cu 34]) ++ rest)) = _
  have e : (cu 34).val = 34 := by decide
  have hl : ((none : Option CodeUnit).toList ++ s).length + 1 ≤
      ((quoteUnits s ++ [cu 34]) ++ rest).length + 1 := by
    have := quoted_length s none
    simp only [List.length_append, List.length_cons, List.length_nil, quoteUnits, codePoints]
      at this ⊢
    omega
  simp only [parseValue, e]
  rw [List.append_assoc] at hl ⊢
  simp only [List.singleton_append] at hl ⊢
  have h := parseStringTail_quoted rest s none _ (by intro hi h; cases h) hl
  simp only [quoteUnits, codePoints] at h ⊢
  rw [h]
  simp

theorem stringifyElems_cons_cons (v w : JsVal) (vs : List JsVal) :
    stringifyElems (v :: w :: vs) = stringifyVal v ++ cu 44 :: stringifyElems (w :: vs) := by
  rw [stringifyElems]

theorem stringifyElems_single (v : JsVal) : stringifyElems [v] = stringifyVal v := by
  rw [stringifyElems]

theorem stringifyVal_str (s : JSString) : stringifyVal (.str s) = quoteJSONString s := by
  rw [stringifyVal]

theorem stringifyElems_strings_head (t : JSString) (ts : List JSString) :
    ∃ tl, stringifyElems ((t :: ts).map JsVal.str) = cu 34 :: tl := by
  cases ts with
  | nil => exact ⟨_, by rw [List.map, List.map, stringifyElems_single, stringifyVal_str]; rfl⟩
  | cons u us =>
    exact ⟨_, by
      rw [List.map, List.map, stringifyElems_cons_cons, stringifyVal_str]; rfl⟩

theorem parseElems_comma {f : Nat} {cs r r1 : JSString} {v : JsVal}
    (h1 : parseValue f cs = some (v, r)) (h2 : skipWs r = cu 44 :: r1) :
    parseElems (f + 1) cs = (parseElems f (skipWs r1)).map fun p => (v :: p.1, p.2) := by
  have e44 : (cu 44).val = 44 := by decide
  simp only [parseElems, h1, h2, e44, if_true]

theorem parseElems_close {f : Nat} {cs r r1 : JSString} {v : JsVal}
    (h1 : parseValue f cs = some (v, r)) (h2 : skipWs r = cu 93 :: r1) :
    parseElems (f + 1) cs = some ([v], r1) := by
  have e93 : (cu 93).val = 93 := by decide
  simp [parseElems, h1, h2, e93]

theorem parseValue_array {f : Nat} {rest r1 : JSString} {c1 : CodeUnit}
    (h1 : skipWs rest = c1 :: r1) (h2 : c1.val ≠ 93) :
    parseValue (f + 1) (cu 91 :: rest) =
      (parseElems f (c1 :: r1)).map fun p => (JsVal.arr p.1, p.2) := by
  have e91 : (cu 91).val = 91 := by decide
  simp [parseValue, h1, h2, e91]

theorem parseElems_strings (rest : JSString) (l : List JSString) :
    ∀ s fuel, (s :: l).length + 1 ≤ fuel →
      parseElems fuel (stringifyElems ((s :: l).map JsVal.str) ++ cu 93 :: rest) =
        some ((s :: l).map JsVal.str, rest) := by
  induction l with
  | nil =>
    intro s fuel hf
    obtain ⟨f, rfl⟩ : ∃ f, fuel = f + 2 := ⟨fuel - 2, by simp at hf; omega⟩
    have key : stringifyElems ([s].map JsVal.str) ++ cu 93 :: rest
        = quoteJSONString s ++ cu 93 :: rest := by
      simp [stringifyElems_single, stringifyVal_str]
    rw [key]
    exact parseElems_close (parseValue_quoted f s _) rfl
  | cons t ts ih =>
    intro s fuel hf
    obtain ⟨f, rfl⟩ : ∃ f, fuel = f + 2 := ⟨fuel - 2, by simp at hf; omega⟩
    have hf2 : (t :: ts).length + 1 ≤ f + 1 := by simp at hf ⊢; omega
    obtain ⟨tl, htl⟩ := stringifyElems_strings_head t ts
    have key : stringifyElems ((s :: t :: ts).map JsVal.str) ++ cu 93 :: rest
        = quoteJSONString s ++
          cu 44 :: (stringifyElems ((t :: ts).map JsVal.str) ++ cu 93 :: rest) := by
      simp [stringifyElems_cons_cons, stringifyVal_str]
    have hws2 : skipWs (stringifyElems ((t :: ts).map JsVal.str) ++ cu 93 :: rest)
        = stringifyElems ((t :: ts).map JsVal.str) ++ cu 93 :: rest := by
      rw [htl]; rfl
    have hc : skipWs (cu 44 :: (stringifyElems ((t :: ts).map JsVal.str) ++ cu 93 :: rest))
        = cu 44 :: (stringifyElems ((t :: ts).map JsVal.str) ++ cu 93 :: rest) := rfl
    rw [key, parseElems_comma (parseValue_quoted f s _) hc, hws2, ih t (f + 1) hf2]
    rfl

theorem stringifyElems_strings_length (l : List JSString) :
    l.length ≤ (stringifyElems (l.map JsVal.str)).length := by
  induction l with
  | nil => simp
  | cons s l ih =>
    cases l with
    | nil =>
      rw [List.map, List.map, stringifyElems_single, stringifyVal_str]
      simp [quoteJSONString]
    | cons t ts =>
      rw [List.map, List.map_cons, stringifyElems_cons_cons, stringifyVal_str]
      rw [← List.map_cons]
      simp only [List.length_append, List.length_cons] at ih ⊢
      omega

/-- Reading back a serialised array of strings gives the array. -/
theorem parse_stringify_strings (l : List JSString) :
    JSON.parse (JSON.stringify (.arr (l.map JsVal.str))) = .ok (.arr (l.map JsVal.str)) := by
  cases l with
  | nil => rfl
  | cons s l =>
    obtain ⟨tl, htl⟩ := stringifyElems_strings_head s l
    have hlen := stringifyElems_strings_length (s :: l)
    have h := parseElems_strings [] l s
      ((stringifyElems ((s :: l).map JsVal.str) ++ [cu 93]).length + 1)
      (by simp only [List.length_append, List.length_cons, List.length_nil] at hlen ⊢; omega)
    have hws2 : skipWs (stringifyElems ((s :: l).map JsVal.str) ++ [cu 93])
        = cu 34 :: (tl ++ [cu 93]) := by
      rw [htl]; rfl
    have hv : parseValue
        ((cu 91 :: (stringifyElems ((s :: l).map JsVal.str) ++ [cu 93])).length + 1)
        (cu 91 :: (stringifyElems ((s :: l).map JsVal.str) ++ [cu 93]))
        = some (.arr ((s :: l).map JsVal.str), []) := by
      rw [List.length_cons, parseValue_array hws2 (by decide)]
      rw [htl] at h
      rw [htl]
      simp only [List.cons_append] at h ⊢
      rw [h]
      rfl
    have hd : JSON.stringify (.arr ((s :: l).map JsVal.str))
        = cu 91 :: (stringifyElems ((s :: l).map JsVal.str) ++ [cu 93]) := by
      unfold JSON.stringify
      rw [stringifyVal]
    unfold JSON.parse
    rw [hd]
    have hws : skipWs (cu 91 :: (stringifyElems ((s :: l).map JsVal.str) ++ [cu 93]))
        = cu 91 :: (stringifyElems ((s :: l).map JsVal.str) ++ [cu 93]) := rfl
    rw [hws, hv]
    rfl

/-! ## Sets of identifiers -/

theorem sameValueZero_str (a b : JSString) : sameValueZero (.str a) (.str b) = (a == b) := rfl

theorem has_strs (d : List JSString) (s : JSString) :
    JSSet.has (d.map JsVal.str) (.str s) = decide (s ∈ d) := by
  unfold JSSet.has
  induction d with
  | nil => simp
  | cons x d ih =>
    rw [List.map_cons, List.any_cons, ih, sameValueZero_str]
    by_cases h : x = s
    · simp [h]
    · have h2 : ¬ s = x := fun e => h e.symm
      simp [h, h2]

theorem add_strs (d : List JSString) (s : JSString) :
    JSSet.add (d.map JsVal.str) (.str s) = (if s ∈ d then d else d ++ [s]).map JsVal.str := by
  unfold JSSet.add
  rw [has_strs]
  by_cases h : s ∈ d <;> simp [h, plusZero]

theorem delete_strs (d : List JSString) (s : JSString) :
    JSSet.delete (d.map JsVal.str) (.str s) = (d.filter fun x => x ≠ s).map JsVal.str := by
  unfold JSSet.delete
  induction d with
  | nil => rfl
  | cons x d ih =>
    rw [List.map_cons, List.filter_cons, ih, sameValueZero_str, List.filter_cons]
    by_cases h : x = s
    · simp [h]
    · simp [h]

theorem foldl_add_strs (l : List JSString) :
    ∀ a : List JSString, (l.map JsVal.str).foldl JSSet.add (a.map JsVal.str) =
      (l.foldl (fun acc x => if x ∈ acc then acc else acc ++ [x]) a).map JsVal.str := by
  induction l with
  | nil => intro a; rfl
  | cons x l ih =>
    intro a
    rw [List.map_cons, List.foldl_cons, add_strs, ih, List.foldl_cons]

theorem new_strs (l : List JSString) :
    JSSet.new (.arr (l.map JsVal.str)) = .ok ((dedupe l).map JsVal.str) := by
  have h := foldl_add_strs l []
  simp only [List.map_nil] at h
  simp only [JSSet.new, dedupe, h]

theorem foldl_insert_spec (l : List JSString) :
    ∀ a : List JSString, a.Nodup →
      (l.foldl (fun acc x => if x ∈ acc then acc else acc ++ [x]) a).Nodup ∧
      (∀ x, x ∈ l.foldl (fun acc x => if x ∈ acc then acc else acc ++ [x]) a ↔ x ∈ a ∨ x ∈ l) ∧
      ((a ++ l).Nodup → l.foldl (fun acc x => if x ∈ acc then acc else acc ++ [x]) a = a ++ l) := by
  induction l with
  | nil => intro a ha; simp [ha]
  | cons y l ih =>
    intro a ha
    rw [List.foldl_cons]
    by_cases hy : y ∈ a
    · simp only [hy, if_true]
      obtain ⟨h1, h2, _⟩ := ih a ha
      refine ⟨h1, ?_, ?_⟩
      · intro x
        rw [h2, List.mem_cons]
        constructor
        · rintro (h | h)
          · exact Or.inl h
          · exact Or.inr (Or.inr h)
        · rintro (h | h | h)
          · exact Or.inl h
          · exact Or.inl (h ▸ hy)
          · exact Or.inr h
      · intro hnd
        exact absurd hnd (by
          rw [List.nodup_append]
          rintro ⟨_, _, hdis⟩
          exact hdis hy (List.mem_cons_self _ _))
    · simp only [hy, if_false]
      have ha2 : (a ++ [y]).Nodup := by
        rw [List.nodup_append]
        refine ⟨ha, List.nodup_singleton y, ?_⟩
        intro z hz hz2
        rw [List.mem_singleton] at hz2
        exact hy (hz2 ▸ hz)
      obtain ⟨h1, h2, h3⟩ := ih (a ++ [y]) ha2
      refine ⟨h1, ?_, ?_⟩
      · intro x
        rw [h2, List.mem_append, List.mem_singleton, List.mem_cons, or_assoc]
      · intro hnd
        have : (a ++ [y] ++ l).Nodup := by simpa using hnd
        rw [h3 this]
        simp

theorem dedupe_nodup (l : List JSString) : (dedupe l).Nodup :=
  (foldl_insert_spec l [] List.nodup_nil).1

theorem mem_dedupe (l : List JSString) (x : JSString) : x ∈ dedupe l ↔ x ∈ l := by
  have h := (foldl_insert_spec l [] List.nodup_nil).2.1 x
  simpa [dedupe] using h

theorem dedupe_of_nodup (l : List JSString) (h : l.Nodup) : dedupe l = l := by
  have h3 := (foldl_insert_spec l [] List.nodup_nil).2.2 (by simpa using h)
  simpa [dedupe] using h3

theorem toggleList_nodup (l : List JSString) (s : JSString) : (toggleList l s).Nodup := by
  unfold toggleList
  split_ifs with h
  · exact (dedupe_nodup l).filter _
  · rw [List.nodup_append]
    refine ⟨dedupe_nodup l, List.nodup_singleton s, ?_⟩
    intro z hz hz2
    rw [List.mem_singleton] at hz2
    exact h (hz2 ▸ hz)

theorem mem_toggleList_self (l : List JSString) (s : JSString) : s ∈ toggleList l s ↔ s ∉ l := by
  unfold toggleList
  split_ifs with h
  · have h2 : s ∈ l := (mem_dedupe l s).1 h
    simp [h2]
  · have h2 : s ∉ l := fun e => h ((mem_dedupe l s).2 e)
    simp [h2]

theorem mem_toggleList_other (l : List JSString) (s t : JSString) (hts : t ≠ s) :
    t ∈ toggleList l s ↔ t ∈ l := by
  unfold toggleList
  split_ifs with h
  · simp [List.mem_filter, mem_dedupe, hts]
  · simp [mem_dedupe, hts]

theorem toggle_set_strs (l : List JSString) (s : JSString) :
    (if JSSet.has ((dedupe l).map JsVal.str) (.str s)
      then JSSet.delete ((dedupe l).map JsVal.str) (.str s)
      else JSSet.add ((dedupe l).map JsVal.str) (.str s)) = (toggleList l s).map JsVal.str := by
  rw [has_strs, delete_strs, add_strs]
  unfold toggleList
  by_cases h : s ∈ dedupe l <;> simp [h]

/-! ## Reading and writing the favourites -/

theorem parse_empty : JSON.parse [] = .error .syntaxError := rfl

theorem orDefault_some {s : JSString} (h : s ≠ []) (d : JSString) : orDefault (some s) d = s := by
  simp [orDefault, h]

theorem getFavs_of_stored {st : State} {raw : JSString} {v : JsVal}
    (hraw : st.localStorage.getItem storeKey = some raw) (hparse : JSON.parse raw = .ok v) :
    getFavs st = v := by
  have hne : raw ≠ [] := by
    intro e
    rw [e, parse_empty] at hparse
    cases hparse
  unfold getFavs
  rw [hraw, orDefault_some hne, hparse]

theorem getFavs_congr {st1 st2 : State}
    (h : st1.localStorage.getItem storeKey = st2.localStorage.getItem storeKey) :
    getFavs st1 = getFavs st2 := by
  unfold getFavs
  rw [h]

theorem getItem_setItem_same (s : Storage) (k v : JSString) : (s.setItem k v).getItem k = some v := by
  simp [Storage.getItem, Storage.setItem]

theorem getItem_setItem_other (s : Storage) {k k2 : JSString} (v : JSString) (h : k2 ≠ k) :
    (s.setItem k v).getItem k2 = s.getItem k2 := by
  simp [Storage.getItem, Storage.setItem, h]

theorem getFavs_stored_strings {st : State} (l : List JSString)
    (h : st.localStorage.getItem storeKey = some (JSON.stringify (.arr (l.map JsVal.str)))) :
    getFavs st = .arr (l.map JsVal.str) :=
  getFavs_of_stored h (parse_stringify_strings l)

/-- The state `toggleFav` leaves when the favourites read as the list `l`. -/
theorem toggleFav_eq (st : State) (l : List JSString) (s : JSString)
    (h : getFavs st = .arr (l.map JsVal.str)) :
    toggleFav st s =
      ({ st with
          localStorage :=
            st.localStorage.setItem storeKey (JSON.stringify (.arr ((toggleList l s).map JsVal.str))),
          document :=
            (st.document.map (renderBadge (natText (toggleList l s).length))).map
              (syncCard ((toggleList l s).map JsVal.str)) }, none) := by
  unfold toggleFav
  rw [h, new_strs]
  simp only [toggle_set_strs, Array.ofSet, setFavs]
  have g1 : getFavs { st with localStorage := (st.localStorage.setItem storeKey
      (JSON.stringify (.arr ((toggleList l s).map JsVal.str)))) }
      = .arr ((toggleList l s).map JsVal.str) :=
    getFavs_stored_strings _ (getItem_setItem_same _ _ _)
  unfold renderFavBadges
  rw [g1]
  simp only [lengthText, List.length_map]
  unfold updateCardButtons
  have g2 : getFavs { st with
      localStorage :=
        st.localStorage.setItem storeKey (JSON.stringify (.arr ((toggleList l s).map JsVal.str))),
      document := st.document.map (renderBadge (natText (toggleList l s).length)) }
      = .arr ((toggleList l s).map JsVal.str) :=
    getFavs_stored_strings _ (getItem_setItem_same _ _ _)
  rw [g2, new_strs, dedupe_of_nodup _ (toggleList_nodup l s)]


/-! ## Claims -/

theorem getFavs_toggle (st : State) (l : List JSString) (s : JSString)
    (h : getFavs st = .arr (l.map JsVal.str)) :
    (toggleFav st s).2 = none ∧
    (toggleFav st s).1.localStorage.getItem storeKey =
      some (JSON.stringify (.arr ((toggleList l s).map JsVal.str))) ∧
    getFavs (toggleFav st s).1 = .arr ((toggleList l s).map JsVal.str) := by
  rw [toggleFav_eq st l s h]
  exact ⟨rfl, getItem_setItem_same _ _ _, getFavs_stored_strings _ (getItem_setItem_same _ _ _)⟩

/-- C1: when the stored favourites are a JSON array of strings, a call of
`toggleFavorite(s)` raises nothing and persists an array of strings that
contains `s` exactly when `s` was absent before, with the membership of every
other identifier unchanged. -/
theorem toggleFavorite_flips_membership (st : State) (raw : JSString) (l : List JSString)
    (s : JSString) (hraw : st.localStorage.getItem storeKey = some raw)
    (hparse : JSON.parse raw = .ok (.arr (l.map JsVal.str))) :
    ∃ l2 : List JSString,
      (toggleFavorite st s).2 = none ∧
      (toggleFavorite st s).1.localStorage.getItem storeKey =
        some (JSON.stringify (.arr (l2.map JsVal.str))) ∧
      getFavorites (toggleFavorite st s).1 = .arr (l2.map JsVal.str) ∧
      (s ∈ l2 ↔ s ∉ l) ∧ ∀ t, t ≠ s → (t ∈ l2 ↔ t ∈ l) := by
  obtain ⟨h1, h2, h3⟩ := getFavs_toggle st l s (getFavs_of_stored hraw hparse)
  exact ⟨toggleList l s, h1, h2, h3, mem_toggleList_self l s,
    fun t ht => mem_toggleList_other l s t ht⟩

theorem toggleFavorite_flips_membership_witness :
    (exampleState (some (utf16 "[\"alpha\",\"\\ud800\"]")) none).localStorage.getItem storeKey
        = some (utf16 "[\"alpha\",\"\\ud800\"]") ∧
    JSON.parse (utf16 "[\"alpha\",\"\\ud800\"]")
        = .ok (.arr ([utf16 "alpha", [cu 55296]].map JsVal.str)) ∧
    ∃ l2 : List JSString,
      (toggleFavorite (exampleState (some (utf16 "[\"alpha\",\"\\ud800\"]")) none)
        (utf16 "alpha")).2 = none ∧
      (toggleFavorite (exampleState (some (utf16 "[\"alpha\",\"\\ud800\"]")) none)
        (utf16 "alpha")).1.localStorage.getItem storeKey
          = some (JSON.stringify (.arr (l2.map JsVal.str))) ∧
      getFavorites (toggleFavorite (exampleState (some (utf16 "[\"alpha\",\"\\ud800\"]")) none)
        (utf16 "alpha")).1 = .arr (l2.map JsVal.str) ∧
      (utf16 "alpha" ∈ l2 ↔ utf16 "alpha" ∉ [utf16 "alpha", [cu 55296]]) ∧
      ∀ t, t ≠ utf16 "alpha" → (t ∈ l2 ↔ t ∈ [utf16 "alpha", [cu 55296]]) :=
  ⟨rfl, rfl, toggleFavorite_flips_membership _ _ [utf16 "alpha", [cu 55296]] (utf16 "alpha") rfl rfl⟩

/-- C2: when the stored favourites are a JSON array of strings, duplicates
allowed, two calls of `toggleFavorite(s)` in a row raise nothing and leave
`getFavorites()` with exactly the members it had before. -/
theorem toggleFavorite_twice_restores (st : State) (raw : JSString) (l : List JSString)
    (s : JSString) (hraw : st.localStorage.getItem storeKey = some raw)
    (hparse : JSON.parse raw = .ok (.arr (l.map JsVal.str))) :
    (toggleFavorite st s).2 = none ∧
    (toggleFavorite (toggleFavorite st s).1 s).2 = none ∧
    ∃ l2 : List JSString,
      getFavorites (toggleFavorite (toggleFavorite st s).1 s).1 = .arr (l2.map JsVal.str) ∧
      ∀ t, t ∈ l2 ↔ t ∈ l := by
  obtain ⟨h1, _, h3⟩ := getFavs_toggle st l s (getFavs_of_stored hraw hparse)
  obtain ⟨k1, _, k3⟩ := getFavs_toggle (toggleFav st s).1 (toggleList l s) s h3
  refine ⟨h1, k1, toggleList (toggleList l s) s, k3, ?_⟩
  intro t
  by_cases hts : t = s
  · subst hts
    rw [mem_toggleList_self, mem_toggleList_self, not_not]
  · rw [mem_toggleList_other _ _ _ hts, mem_toggleList_other _ _ _ hts]

theorem toggleFavorite_twice_restores_witness :
    (exampleState (some (utf16 "[\"a\",\"b\",\"a\"]")) none).localStorage.getItem storeKey
        = some (utf16 "[\"a\",\"b\",\"a\"]") ∧
    JSON.parse (utf16 "[\"a\",\"b\",\"a\"]")
        = .ok (.arr ([utf16 "a", utf16 "b", utf16 "a"].map JsVal.str)) ∧
    (toggleFavorite (exampleState (some (utf16 "[\"a\",\"b\",\"a\"]")) none) (utf16 "a")).2
        = none ∧
    (toggleFavorite (toggleFavorite (exampleState (some (utf16 "[\"a\",\"b\",\"a\"]")) none)
        (utf16 "a")).1 (utf16 "a")).2 = none ∧
    ∃ l2 : List JSString,
      getFavorites
          (toggleFavorite (toggleFavorite (exampleState (some (utf16 "[\"a\",\"b\",\"a\"]")) none)
            (utf16 "a")).1 (utf16 "a")).1 = .arr (l2.map JsVal.str) ∧
      ∀ t, t ∈ l2 ↔ t ∈ [utf16 "a", utf16 "b", utf16 "a"] :=
  ⟨rfl, rfl,
    toggleFavorite_twice_restores _ _ [utf16 "a", utf16 "b", utf16 "a"] (utf16 "a") rfl rfl⟩

/-- C3: for every list `l` of string identifiers (distinct or not), `setFavs`
raises nothing and `getFavorites()` called after `setFavs(l)` returns the
array `l` itself, hence a collection with exactly the members of `l`. -/
theorem getFavorites_setFavs (st : State) (l : List JSString) :
    (setFavs st (l.map JsVal.str)).2 = none ∧
    getFavorites (setFavs st (l.map JsVal.str)).1 = .arr (l.map JsVal.str) ∧
    ∀ t, JsVal.str t ∈ l.map JsVal.str ↔ t ∈ l := by
  have g1 : getFavs { st with localStorage := (st.localStorage.setItem storeKey
      (JSON.stringify (.arr (l.map JsVal.str)))) } = .arr (l.map JsVal.str) :=
    getFavs_stored_strings _ (getItem_setItem_same _ _ _)
  have e : setFavs st (l.map JsVal.str) =
      ({ st with
          localStorage := (st.localStorage.setItem storeKey (JSON.stringify (.arr (l.map JsVal.str)))),
          document := st.document.map (renderBadge (natText l.length)) }, none) := by
    unfold setFavs renderFavBadges
    rw [g1]
    simp only [lengthText, List.length_map]
  rw [e]
  refine ⟨rfl, getFavs_stored_strings _ (getItem_setItem_same _ _ _), ?_⟩
  intro t
  simp

theorem getFavs_unreadable (st : State)
    (h : st.localStorage.getItem storeKey = none ∨
      st.localStorage.getItem storeKey = some [] ∨
      ∃ raw e, st.localStorage.getItem storeKey = some raw ∧ JSON.parse raw = .error e) :
    getFavs st = .arr [] := by
  unfold getFavs
  rcases h with h | h | ⟨raw, e, h, hp⟩
  · rw [h]; rfl
  · rw [h]; rfl
  · rw [h]
    by_cases hr : raw = []
    · subst hr; rfl
    · rw [orDefault_some hr, hp]

/-- C4: `getFavorites()` is a total function (it has no exception outcome)
and returns the empty array whenever the value stored under the favourites
key is absent, is the empty string, or is a string that `JSON.parse`
rejects. -/
theorem getFavorites_empty_of_unreadable (st : State)
    (h : st.localStorage.getItem storeKey = none ∨
      st.localStorage.getItem storeKey = some [] ∨
      ∃ raw e, st.localStorage.getItem storeKey = some raw ∧ JSON.parse raw = .error e) :
    getFavorites st = .arr [] :=
  getFavs_unreadable st h

theorem getFavorites_empty_of_unreadable_witness :
    getFavorites (exampleState none none) = .arr [] ∧
    getFavorites (exampleState (some []) none) = .arr [] ∧
    JSON.parse (utf16 "[\"alpha\",") = .error .syntaxError ∧
    getFavorites (exampleState (some (utf16 "[\"alpha\",")) none) = .arr [] :=
  ⟨getFavorites_empty_of_unreadable _ (Or.inl rfl),
   getFavorites_empty_of_unreadable _ (Or.inr (Or.inl rfl)),
   rfl,
   getFavorites_empty_of_unreadable _
     (Or.inr (Or.inr ⟨utf16 "[\"alpha\",", .syntaxError, rfl, rfl⟩))⟩

/-- C5, refuted as stated: the stored string `5` is valid JSON but not an
array of strings; `getFavorites()` returns the number five, not an empty
collection, and `toggleFavorite` raises a `TypeError`. -/
theorem getFavorites_wrong_shape_counterexample :
    (exampleState (some (utf16 "5")) none).localStorage.getItem storeKey = some (utf16 "5") ∧
    (¬ ∃ l : List JSString, JSON.parse (utf16 "5") = .ok (.arr (l.map JsVal.str))) ∧
    getFavorites (exampleState (some (utf16 "5")) none) = .num false [5] 0 ∧
    getFavorites (exampleState (some (utf16 "5")) none) ≠ .arr [] ∧
    (toggleFavorite (exampleState (some (utf16 "5")) none) (utf16 "alpha")).2
      = some .typeError := by
  have hp : JSON.parse (utf16 "5") = .ok (.num false [5] 0) := rfl
  have hg : getFavorites (exampleState (some (utf16 "5")) none) = .num false [5] 0 := rfl
  refine ⟨rfl, ?_, hg, ?_, rfl⟩
  · rintro ⟨l, hl⟩
    rw [hp] at hl
    cases hl
  · rw [hg]
    intro h
    cases h

/-- C5, amended: for every stored string that `JSON.parse` rejects,
`getFavorites()` returns the empty array and `toggleFavorite(s)` completes
without raising; a stored string that `JSON.parse` accepts is returned as
parsed, whatever its shape. -/
theorem getFavorites_unparsable (st : State) (raw : JSString) (s : JSString)
    (hraw : st.localStorage.getItem storeKey = some raw) :
    (∀ e, JSON.parse raw = .error e →
      getFavorites st = .arr [] ∧ (toggleFavorite st s).2 = none) ∧
    (∀ v, JSON.parse raw = .ok v → getFavorites st = v) := by
  refine ⟨?_, fun v hv => getFavs_of_stored hraw hv⟩
  intro e he
  have hg : getFavs st = .arr [] :=
    getFavs_unreadable st (Or.inr (Or.inr ⟨raw, e, hraw, he⟩))
  exact ⟨hg, (getFavs_toggle st [] s hg).1⟩

theorem getFavorites_unparsable_witness :
    (exampleState (some (utf16 "alpha,beta")) none).localStorage.getItem storeKey
      = some (utf16 "alpha,beta") ∧
    JSON.parse (utf16 "alpha,beta") = .error .syntaxError ∧
    getFavorites (exampleState (some (utf16 "alpha,beta")) none) = .arr [] ∧
    (toggleFavorite (exampleState (some (utf16 "alpha,beta")) none) (utf16 "alpha")).2 = none :=
  ⟨rfl, rfl,
    (getFavorites_unparsable (exampleState (some (utf16 "alpha,beta")) none) (utf16 "alpha,beta")
      (utf16 "alpha") rfl).1 .syntaxError rfl⟩

theorem setCity_stored (st : State) (city : CityArg) :
    (setCity st city).localStorage.getItem cityKey = some (city.orDefault []) :=
  getItem_setItem_same _ _ _

/-- C6: for every string `c`, the empty string included, `getCity()` called
after `setCity(c)` returns `c`; `setCity(undefined)` and `setCity(null)`
persist the empty string; and `getCity()` returns the empty string when no
city is persisted. -/
theorem getCity_setCity (st : State) :
    (∀ c : JSString, getCity (setCity st (.str c)) = c) ∧
    (setCity st .undefined).localStorage.getItem cityKey = some [] ∧
    (setCity st .null).localStorage.getItem cityKey = some [] ∧
    (st.localStorage.getItem cityKey = none → getCity st = []) := by
  refine ⟨?_, setCity_stored st .undefined, setCity_stored st .null, ?_⟩
  · intro c
    unfold getCity
    rw [setCity_stored]
    by_cases h : c = []
    · subst h; rfl
    · simp [CityArg.orDefault, orDefault, h]
  · intro h
    unfold getCity
    rw [h]
    rfl

theorem getCity_setCity_witness :
    getCity (setCity (exampleState none none) (.str (utf16 "Springfield"))) = utf16 "Springfield" ∧
    getCity (setCity (exampleState none (some (utf16 "Springfield"))) (.str [])) = [] ∧
    (exampleState none none).localStorage.getItem cityKey = none ∧
    getCity (exampleState none none) = [] :=
  ⟨(getCity_setCity _).1 (utf16 "Springfield"), (getCity_setCity _).1 [], rfl,
    (getCity_setCity (exampleState none none)).2.2.2 rfl⟩

/-! ### Percent-encoding and well-formed strings -/

theorem codePointsFrom_shape (cs : JSString) :
    ∀ (pend : Option CodeUnit) (p : JSString), p ∈ codePointsFrom pend cs →
      (∃ a, p = [a]) ∨ ∃ a b, p = [a, b] := by
  induction cs with
  | nil =>
    intro pend p hp
    cases pend with
    | none => simp [codePointsFrom] at hp
    | some hi =>
      simp only [codePointsFrom, List.mem_singleton] at hp
      exact Or.inl ⟨hi, hp⟩
  | cons a cs ih =>
    intro pend p hp
    cases pend with
    | some hi =>
      simp only [codePointsFrom, List.mem_cons] at hp
      rcases hp with hp | hp
      · exact Or.inr ⟨hi, a, hp⟩
      · exact ih none p hp
    | none =>
      by_cases hpair : isHighSurrogate a = true ∧ startsWithLow cs = true
      · simp only [codePointsFrom, hpair, and_self, if_true] at hp
        exact ih (some a) p hp
      · simp only [codePointsFrom, hpair, if_false, List.mem_cons] at hp
        rcases hp with hp | hp
        · exact Or.inl ⟨a, hp⟩
        · exact ih none p hp

theorem encodePoints_ok (ps : List JSString)
    (hshape : ∀ p ∈ ps, (∃ a, p = [a]) ∨ ∃ a b, p = [a, b])
    (hwf : (ps.all fun p => match p with | [a] => !isSurrogate a | _ => true) = true) :
    ∃ enc, encodePoints ps = .ok enc := by
  induction ps with
  | nil => exact ⟨[], rfl⟩
  | cons p ps ih =>
    rw [List.all_cons, Bool.and_eq_true] at hwf
    obtain ⟨enc, he⟩ := ih (fun q hq => hshape q (List.mem_cons_of_mem _ hq)) hwf.2
    have hp : ∃ x, encodePoint p = .ok x := by
      rcases hshape p (List.mem_cons_self _ _) with ⟨a, rfl⟩ | ⟨a, b, rfl⟩
      · have hs : isSurrogate a = false := by simpa using hwf.1
        unfold encodePoint
        simp only [hs, Bool.false_eq_true, if_false]
        split_ifs
        · exact ⟨_, rfl⟩
        · exact ⟨_, rfl⟩
      · exact ⟨_, rfl⟩
    obtain ⟨x, hx⟩ := hp
    exact ⟨x ++ enc, by simp only [encodePoints, hx, he]⟩

theorem encodePoint_error (p : JSString) (e : JSError) (h : encodePoint p = .error e) :
    e = .uriError := by
  unfold encodePoint at h
  split at h
  · split_ifs at h
    · cases h; rfl
  · cases h
  · cases h; rfl

theorem encodePoints_error (ps : List JSString)
    (hwf : (ps.all fun p => match p with | [a] => !isSurrogate a | _ => true) = false) :
    encodePoints ps = .error .uriError := by
  induction ps with
  | nil => simp at hwf
  | cons p ps ih =>
    rw [List.all_cons, Bool.and_eq_false_iff] at hwf
    unfold encodePoints
    cases hp : encodePoint p with
    | error e => rw [encodePoint_error p e hp]
    | ok x =>
      simp only []
      rcases hwf with hwf | hwf
      · exfalso
        unfold encodePoint at hp
        split at hp
        · rename_i a
          have hs : isSurrogate a = true := by simpa using hwf
          simp [hs] at hp
        · simp at hwf
        · simp at hwf
      · rw [ih hwf]

theorem encodeURIComponent_wellFormed (s : JSString) (h : isWellFormed s = true) :
    ∃ enc, encodeURIComponent s = .ok enc :=
  encodePoints_ok _ (fun p hp => codePointsFrom_shape s none p hp) h

theorem encodeURIComponent_illFormed (s : JSString) (h : isWellFormed s = false) :
    encodeURIComponent s = .error .uriError :=
  encodePoints_error _ h

theorem browseUniversities_unchanged (st : State) :
    (browseUniversities st).1.localStorage = st.localStorage ∧
    (browseUniversities st).1.document = st.document ∧
    (browseUniversities st).1.requests = st.requests := by
  unfold browseUniversities
  simp only []
  split_ifs
  · exact ⟨rfl, rfl, rfl⟩
  · split <;> exact ⟨rfl, rfl, rfl⟩

/-- C7, refuted as stated: after `changeCity` with the one-unit string of an
unpaired surrogate a non-empty city is persisted, and `browseUniversities()`
raises a `URIError`: the page location is not set and no alert is raised. -/
theorem browseUniversities_lone_surrogate_counterexample :
    (changeCity (exampleState none none) (.str [cu 55296])).localStorage.getItem cityKey
      = some [cu 55296] ∧
    [cu 55296] ≠ ([] : JSString) ∧
    (browseUniversities (changeCity (exampleState none none) (.str [cu 55296]))).2
      = some .uriError ∧
    (browseUniversities (changeCity (exampleState none none) (.str [cu 55296]))).1.href
      = (exampleState none none).href ∧
    (browseUniversities (changeCity (exampleState none none) (.str [cu 55296]))).1.alerts = [] := by
  refine ⟨rfl, by decide, rfl, rfl, rfl⟩

/-- C7, amended: with no city persisted (absent or empty)
`browseUniversities()` raises the alert and leaves the page location
unchanged; with a persisted non-empty city `c` that has no unpaired surrogate
it sets the page location to `/universities?city=` followed by
`encodeURIComponent(c)` and raises no alert; with a persisted city that has an
unpaired surrogate it raises a `URIError` and changes nothing.  Storage,
document and requests are untouched in every case. -/
theorem browseUniversities_navigates_iff_city (st : State) :
    ((st.localStorage.getItem cityKey = none ∨ st.localStorage.getItem cityKey = some []) →
      (browseUniversities st).2 = none ∧
      (browseUniversities st).1.href = st.href ∧
      (browseUniversities st).1.alerts = st.alerts ++ [utf16 "Please select a city first!"]) ∧
    (∀ c : JSString, st.localStorage.getItem cityKey = some c → c ≠ [] →
      isWellFormed c = true →
      ∃ enc, encodeURIComponent c = .ok enc ∧
        (browseUniversities st).2 = none ∧
        (browseUniversities st).1.href = utf16 "/universities?city=" ++ enc ∧
        (browseUniversities st).1.alerts = st.alerts) ∧
    (∀ c : JSString, st.localStorage.getItem cityKey = some c → c ≠ [] →
      isWellFormed c = false →
      (browseUniversities st).2 = some .uriError ∧
      (browseUniversities st).1.href = st.href ∧
      (browseUniversities st).1.alerts = st.alerts) ∧
    (browseUniversities st).1.localStorage = st.localStorage ∧
    (browseUniversities st).1.document = st.document ∧
    (browseUniversities st).1.requests = st.requests := by
  refine ⟨?_, ?_, ?_, browseUniversities_unchanged st⟩
  · intro h
    have hc : getCity st = [] := by
      unfold getCity
      rcases h with h | h <;> rw [h] <;> rfl
    simp [browseUniversities, hc]
  · intro c h hne hwf
    have hc : getCity st = c := by
      unfold getCity
      rw [h, orDefault_some hne]
    obtain ⟨enc, he⟩ := encodeURIComponent_wellFormed c hwf
    refine ⟨enc, he, ?_⟩
    simp [browseUniversities, hc, hne, he]
  · intro c h hne hwf
    have hc : getCity st = c := by
      unfold getCity
      rw [h, orDefault_some hne]
    have he := encodeURIComponent_illFormed c hwf
    simp [browseUniversities, hc, hne, he]

theorem browseUniversities_navigates_iff_city_witness :
    (browseUniversities (exampleState none none)).1.href = utf16 "/" ∧
    (browseUniversities (exampleState none none)).1.alerts
      = [utf16 "Please select a city first!"] ∧
    (∃ enc, encodeURIComponent (utf16 "New York") = .ok enc ∧
      (browseUniversities (exampleState none (some (utf16 "New York")))).2 = none ∧
      (browseUniversities (exampleState none (some (utf16 "New York")))).1.href
        = utf16 "/universities?city=" ++ enc ∧
      (browseUniversities (exampleState none (some (utf16 "New York")))).1.alerts = []) ∧
    encodeURIComponent (utf16 "New York") = .ok (utf16 "New%20York") ∧
    (browseUniversities (exampleState none (some (utf16 "Metropolis")))).1.href
      = utf16 "/universities?city=Metropolis" ∧
    (browseUniversities (exampleState none (some [cu 55296]))).2 = some .uriError := by
  have h1 := (browseUniversities_navigates_iff_city (exampleState none none)).1 (Or.inl rfl)
  have h2 := (browseUniversities_navigates_iff_city
    (exampleState none (some (utf16 "New York")))).2.1 (utf16 "New York") rfl (by decide) rfl
  have h3 := (browseUniversities_navigates_iff_city
    (exampleState none (some [cu 55296]))).2.2.1 [cu 55296] rfl (by decide) rfl
  exact ⟨h1.2.1, h1.2.2, h2, rfl, rfl, h3.1⟩

theorem parse_error_kind (text : JSString) (e : JSError) (h : JSON.parse text = .error e) :
    e = .syntaxError := by
  unfold JSON.parse at h
  split at h
  · cases h; rfl
  · split at h
    · cases h
    · cases h; rfl

/-- C8, refuted as stated: a response with the success status 204 and an
empty body makes `saveList` fail with a `SyntaxError`: the promise neither
resolves nor fails with the error `Failed to save`. -/
theorem saveList_empty_body_counterexample :
    Response.ok { status := 204, body := [] } = true ∧
    (saveList (constServer 204 []) (exampleState none none) (utf16 "A") (utf16 "a@x.com")
      (utf16 "note")).2 = .error .syntaxError ∧
    (saveList (constServer 204 []) (exampleState none none) (utf16 "A") (utf16 "a@x.com")
      (utf16 "note")).2 ≠ .error (.error (utf16 "Failed to save")) ∧
    (∀ v, (saveList (constServer 204 []) (exampleState none none) (utf16 "A") (utf16 "a@x.com")
      (utf16 "note")).2 ≠ .ok v) := by
  have h : (saveList (constServer 204 []) (exampleState none none) (utf16 "A") (utf16 "a@x.com")
      (utf16 "note")).2 = .error .syntaxError := rfl
  refine ⟨rfl, h, ?_, ?_⟩
  · rw [h]; intro c; cases c
  · intro v; rw [h]; intro c; cases c

/-- C8, amended: for every name, email, note, storage state and server,
`saveList(name, email, note)` issues exactly one request, a POST to
`/api/save` with a JSON content type whose body serialises
`{name, email, note, city, favorites}` with `city = getCity()` and
`favorites = getFavorites()` read at the call.  On a success status the
promise settles as `res.json()` does: it resolves with the parsed body when
the body text, a leading byte order mark dropped, is valid JSON, and fails
with a `SyntaxError` when it is not.  On any other status it fails with the
error `Failed to save`.  No second request is issued and storage is unchanged
in every case. -/
theorem saveList_posts_once (server : Request → FetchResult) (st : State)
    (name email note : JSString) :
    (saveList server st name email note).1.requests =
      st.requests ++ [saveRequest st name email note] ∧
    (saveRequest st name email note).url = utf16 "/api/save" ∧
    (saveRequest st name email note).method = utf16 "POST" ∧
    (saveRequest st name email note).headers
      = [(utf16 "Content-Type", utf16 "application/json")] ∧
    (saveRequest st name email note).body =
      JSON.stringify (.obj [(utf16 "name", .str name), (utf16 "email", .str email),
        (utf16 "note", .str note), (utf16 "city", .str (getCity st)),
        (utf16 "favorites", getFavorites st)]) ∧
    (saveList server st name email note).1.localStorage = st.localStorage ∧
    (∀ res, server (saveRequest st name email note) = .response res → res.ok = true →
      ∀ v, JSON.parse (stripBOM res.body) = .ok v →
        (saveList server st name email note).2 = .ok v) ∧
    (∀ res, server (saveRequest st name email note) = .response res → res.ok = true →
      ∀ e, JSON.parse (stripBOM res.body) = .error e →
        (saveList server st name email note).2 = .error .syntaxError) ∧
    (∀ res, server (saveRequest st name email note) = .response res → res.ok = false →
      (saveList server st name email note).2 = .error (.error (utf16 "Failed to save"))) := by
  refine ⟨?_, rfl, rfl, rfl, rfl, ?_, ?_, ?_, ?_⟩
  · unfold saveList
    simp only []
    split
    · rfl
    · split_ifs <;> rfl
  · unfold saveList
    simp only []
    split
    · rfl
    · split_ifs <;> rfl
  · intro res h hok v hv
    unfold saveList
    simp only [h, hok, Response.json, hv]
    simp
  · intro res h hok e he
    have hk := parse_error_kind _ e he
    subst hk
    unfold saveList
    simp only [h, hok, Response.json, he]
    simp
  · intro res h hok
    unfold saveList
    simp only [h, hok]
    simp

set_option maxRecDepth 8000 in
theorem saveList_posts_once_witness :
    (saveList (constServer 200 (utf16 "[1]"))
        (exampleState (some (utf16 "[\"alpha\",\"beta\"]")) (some (utf16 "X")))
        (utf16 "A") (utf16 "a@x.com") (utf16 "note")).1.requests =
      [ { url := utf16 "/api/save", method := utf16 "POST",
          headers := [(utf16 "Content-Type", utf16 "application/json")],
          body := utf16 "\x7b\"name\":\"A\",\"email\":\"a@x.com\",\"note\":\"note\",\"city\":\"X\",\"favorites\":[\"alpha\",\"beta\"]\x7d" } ] ∧
    (saveList (constServer 200 (utf16 "[1]"))
        (exampleState (some (utf16 "[\"alpha\",\"beta\"]")) (some (utf16 "X")))
        (utf16 "A") (utf16 "a@x.com") (utf16 "note")).2 = .ok (.arr [.num false [1] 0]) ∧
    (saveList (constServer 200 (cu 65279 :: utf16 "[1]"))
        (exampleState (some (utf16 "[\"alpha\",\"beta\"]")) (some (utf16 "X")))
        (utf16 "A") (utf16 "a@x.com") (utf16 "note")).2 = .ok (.arr [.num false [1] 0]) ∧
    (saveList (constServer 200 (utf16 "saved"))
        (exampleState (some (utf16 "[\"alpha\",\"beta\"]")) (some (utf16 "X")))
        (utf16 "A") (utf16 "a@x.com") (utf16 "note")).2 = .error .syntaxError ∧
    (saveList (constServer 500 [])
        (exampleState (some (utf16 "[\"alpha\",\"beta\"]")) (some (utf16 "X")))
        (utf16 "A") (utf16 "a@x.com") (utf16 "note")).2
      = .error (.error (utf16 "Failed to save")) ∧
    (saveList (constServer 500 [])
        (exampleState (some (utf16 "[\"alpha\",\"beta\"]")) (some (utf16 "X")))
        (utf16 "A") (utf16 "a@x.com") (utf16 "note")).1.requests.length = 1 := by
  have h1 := saveList_posts_once (constServer 200 (utf16 "[1]"))
    (exampleState (some (utf16 "[\"alpha\",\"beta\"]")) (some (utf16 "X")))
    (utf16 "A") (utf16 "a@x.com") (utf16 "note")
  have h2 := saveList_posts_once (constServer 500 [])
    (exampleState (some (utf16 "[\"alpha\",\"beta\"]")) (some (utf16 "X")))
    (utf16 "A") (utf16 "a@x.com") (utf16 "note")
  have h3 := saveList_posts_once (constServer 200 (cu 65279 :: utf16 "[1]"))
    (exampleState (some (utf16 "[\"alpha\",\"beta\"]")) (some (utf16 "X")))
    (utf16 "A") (utf16 "a@x.com") (utf16 "note")
  have h4 := saveList_posts_once (constServer 200 (utf16 "saved"))
    (exampleState (some (utf16 "[\"alpha\",\"beta\"]")) (some (utf16 "X")))
    (utf16 "A") (utf16 "a@x.com") (utf16 "note")
  refine ⟨?_, h1.2.2.2.2.2.2.1 _ rfl rfl _ rfl, h3.2.2.2.2.2.2.1 _ rfl rfl _ rfl,
    h4.2.2.2.2.2.2.2.1 _ rfl rfl .syntaxError rfl, h2.2.2.2.2.2.2.2.2 _ rfl rfl, ?_⟩
  · rw [h1.1]; rfl
  · rw [h2.1]; rfl

/-! ### Rendered state -/

theorem renderBadge_attrs (n : JSString) (e : Element) : (renderBadge n e).attrs = e.attrs := by
  unfold renderBadge
  split_ifs <;> rfl

theorem syncCard_attrs (favs : JSSet) (e : Element) : (syncCard favs e).attrs = e.attrs := by
  unfold syncCard
  split_ifs <;> rfl

theorem hasAttribute_congr {e1 e2 : Element} (h : e1.attrs = e2.attrs) (name : JSString) :
    e1.hasAttribute name = e2.hasAttribute name := by
  unfold Element.hasAttribute
  rw [h]

theorem getAttribute_congr {e1 e2 : Element} (h : e1.attrs = e2.attrs) (name : JSString) :
    e1.getAttribute name = e2.getAttribute name := by
  unfold Element.getAttribute
  rw [h]

theorem has_strs_null (d : List JSString) : JSSet.has (d.map JsVal.str) .null = false := by
  unfold JSSet.has
  induction d with
  | nil => rfl
  | cons x d ih =>
    rw [List.map_cons, List.any_cons, ih]
    rfl

theorem has_slugOf (e : Element) (l : List JSString) :
    JSSet.has (l.map JsVal.str) (slugOf e) = true ↔ slugIn e l := by
  unfold slugOf slugIn
  cases h : e.getAttribute (utf16 "data-slug") with
  | none => simp [has_strs_null]
  | some s => simp [has_strs]

theorem classToggle_on (cl : List JSString) (name : JSString) :
    name ∈ classToggle cl name true := by
  unfold classToggle
  by_cases h : name ∈ cl <;> simp [h]

theorem classToggle_off (cl : List JSString) (name : JSString) :
    name ∉ classToggle cl name false := by
  simp [classToggle]

theorem classToggle_other (cl : List JSString) (name other : JSString) (force : Bool)
    (h : other ≠ name) : other ∈ classToggle cl name force ↔ other ∈ cl := by
  unfold classToggle
  cases force
  · simp [h]
  · by_cases h2 : name ∈ cl <;> simp [h2, h]

theorem syncButton_active (favs : JSSet) (e : Element) (h : favs.has (slugOf e) = true) :
    (syncButton favs e).content = utf16 "♥ Saved" ∧
      utf16 "btn-danger" ∈ (syncButton favs e).classList ∧
      utf16 "btn-outline-danger" ∉ (syncButton favs e).classList := by
  simp only [syncButton, h, if_true, Bool.not_true]
  refine ⟨trivial, classToggle_on _ _, ?_⟩
  rw [classToggle_other _ _ _ _ (by decide)]
  exact classToggle_off _ _

theorem syncButton_inactive (favs : JSSet) (e : Element) (h : favs.has (slugOf e) = false) :
    (syncButton favs e).content = utf16 "♡ Save" ∧
      utf16 "btn-outline-danger" ∈ (syncButton favs e).classList ∧
      utf16 "btn-danger" ∉ (syncButton favs e).classList := by
  simp only [syncButton, h, Bool.not_false]
  refine ⟨by simp, ?_, classToggle_off _ _⟩
  rw [classToggle_other _ _ _ _ (by decide)]
  exact classToggle_on _ _

/-- C9: when the stored favourites are a JSON array of strings, once
`toggleFavorite(s)` returns, every favourite-button element shows the label
`♥ Saved` with class `btn-danger` and without `btn-outline-danger` if its
`data-slug` is among the persisted favourites, and `♡ Save` with
`btn-outline-danger` and without `btn-danger` otherwise; and every
favourite-count badge, an element apart from the favourite buttons, shows the
number of persisted favourites. -/
theorem rendered_state_consistent (st : State) (raw : JSString) (l : List JSString)
    (s : JSString) (hraw : st.localStorage.getItem storeKey = some raw)
    (hparse : JSON.parse raw = .ok (.arr (l.map JsVal.str))) :
    ∃ l2 : List JSString,
      (toggleFavorite st s).2 = none ∧
      getFavorites (toggleFavorite st s).1 = .arr (l2.map JsVal.str) ∧
      ∀ e ∈ (toggleFavorite st s).1.document,
        (e.hasAttribute (utf16 "data-fav-btn") = true →
          (slugIn e l2 → e.content = utf16 "♥ Saved" ∧ utf16 "btn-danger" ∈ e.classList ∧
            utf16 "btn-outline-danger" ∉ e.classList) ∧
          (¬ slugIn e l2 → e.content = utf16 "♡ Save" ∧
            utf16 "btn-outline-danger" ∈ e.classList ∧ utf16 "btn-danger" ∉ e.classList)) ∧
        (e.hasAttribute (utf16 "data-fav-count") = true →
          e.hasAttribute (utf16 "data-fav-btn") = false →
          e.content = natText l2.length) := by
  have hg := getFavs_of_stored hraw hparse
  obtain ⟨h1, _, h3⟩ := getFavs_toggle st l s hg
  refine ⟨toggleList l s, h1, h3, ?_⟩
  intro e he
  have hdoc : (toggleFavorite st s).1.document =
      (st.document.map (renderBadge (natText (toggleList l s).length))).map
        (syncCard ((toggleList l s).map JsVal.str)) := by
    unfold toggleFavorite
    rw [toggleFav_eq st l s hg]
  rw [hdoc, List.map_map, List.mem_map] at he
  obtain ⟨e0, _, rfl⟩ := he
  simp only [Function.comp]
  have ha : (syncCard ((toggleList l s).map JsVal.str)
      (renderBadge (natText (toggleList l s).length) e0)).attrs = e0.attrs := by
    rw [syncCard_attrs, renderBadge_attrs]
  have hb := renderBadge_attrs (natText (toggleList l s).length) e0
  constructor
  · intro hbtn
    rw [hasAttribute_congr ha, ← hasAttribute_congr hb] at hbtn
    have hs : slugIn (syncCard ((toggleList l s).map JsVal.str)
        (renderBadge (natText (toggleList l s).length) e0)) (toggleList l s) ↔
        slugIn (renderBadge (natText (toggleList l s).length) e0) (toggleList l s) := by
      unfold slugIn
      rw [getAttribute_congr ha, ← getAttribute_congr hb]
    rw [hs, ← has_slugOf]
    have hsync : syncCard ((toggleList l s).map JsVal.str)
        (renderBadge (natText (toggleList l s).length) e0) =
        syncButton ((toggleList l s).map JsVal.str)
          (renderBadge (natText (toggleList l s).length) e0) := by
      unfold syncCard
      rw [if_pos hbtn]
    rw [hsync]
    constructor
    · intro hact
      exact syncButton_active _ _ hact
    · intro hact
      exact syncButton_inactive _ _ (by simpa using hact)
  · intro hcount hnot
    rw [hasAttribute_congr ha] at hcount hnot
    have hnot2 : (renderBadge (natText (toggleList l s).length) e0).hasAttribute
        (utf16 "data-fav-btn") = false := by
      rw [hasAttribute_congr hb]; exact hnot
    unfold syncCard
    rw [hnot2]
    simp only [Bool.false_eq_true, if_false]
    unfold renderBadge
    rw [hcount]
    simp

theorem rendered_state_consistent_witness :
    (exampleState (some (utf16 "[\"alpha\"]")) none).localStorage.getItem storeKey
      = some (utf16 "[\"alpha\"]") ∧
    JSON.parse (utf16 "[\"alpha\"]") = .ok (.arr ([utf16 "alpha"].map JsVal.str)) ∧
    ∃ l2 : List JSString,
      (toggleFavorite (exampleState (some (utf16 "[\"alpha\"]")) none) (utf16 "beta")).2 = none ∧
      getFavorites (toggleFavorite (exampleState (some (utf16 "[\"alpha\"]")) none)
        (utf16 "beta")).1 = .arr (l2.map JsVal.str) ∧
      ∀ e ∈ (toggleFavorite (exampleState (some (utf16 "[\"alpha\"]")) none)
          (utf16 "beta")).1.document,
        (e.hasAttribute (utf16 "data-fav-btn") = true →
          (slugIn e l2 → e.content = utf16 "♥ Saved" ∧ utf16 "btn-danger" ∈ e.classList ∧
            utf16 "btn-outline-danger" ∉ e.classList) ∧
          (¬ slugIn e l2 → e.content = utf16 "♡ Save" ∧
            utf16 "btn-outline-danger" ∈ e.classList ∧ utf16 "btn-danger" ∉ e.classList)) ∧
        (e.hasAttribute (utf16 "data-fav-count") = true →
          e.hasAttribute (utf16 "data-fav-btn") = false →
          e.content = natText l2.length) :=
  ⟨rfl, rfl, rendered_state_consistent _ _ [utf16 "alpha"] (utf16 "beta") rfl rfl⟩

/-! ### Reachable states -/

theorem storeKey_ne_cityKey : storeKey ≠ cityKey := by decide

theorem saveList_localStorage (server : Request → FetchResult) (st : State)
    (name email note : JSString) :
    (saveList server st name email note).1.localStorage = st.localStorage := by
  unfold saveList
  simp only []
  split
  · rfl
  · split_ifs <;> rfl

theorem setCity_getItem_storeKey (st : State) (city : CityArg) :
    (setCity st city).localStorage.getItem storeKey = st.localStorage.getItem storeKey :=
  getItem_setItem_other _ _ storeKey_ne_cityKey

theorem reachable_favorites (st : State) (h : Reachable st) :
    ∃ l : List JSString, l.Nodup ∧ getFavs st = .arr (l.map JsVal.str) ∧
      (st.localStorage.getItem storeKey = none ∨
        st.localStorage.getItem storeKey = some (JSON.stringify (.arr (l.map JsVal.str)))) := by
  induction h with
  | init st h =>
    have hn : st.localStorage.getItem storeKey = none := by rw [h]; rfl
    exact ⟨[], List.nodup_nil, getFavs_unreadable st (Or.inl hn), Or.inl hn⟩
  | step st op _ ih =>
    obtain ⟨l, hl, hg, hs⟩ := ih
    cases op with
    | toggleFavorite slug =>
      obtain ⟨_, h2, h3⟩ := getFavs_toggle st l slug hg
      exact ⟨toggleList l slug, toggleList_nodup l slug, h3, Or.inr h2⟩
    | getFavorites => exact ⟨l, hl, hg, hs⟩
    | changeCity city =>
      have e : (step st (.changeCity city)).localStorage.getItem storeKey
          = st.localStorage.getItem storeKey := setCity_getItem_storeKey st city
      exact ⟨l, hl, by rw [← hg]; exact getFavs_congr e, by rw [e]; exact hs⟩
    | browseUniversities =>
      have e : (step st .browseUniversities).localStorage.getItem storeKey
          = st.localStorage.getItem storeKey := by
        show (browseUniversities st).1.localStorage.getItem storeKey = _
        rw [(browseUniversities_unchanged st).1]
      exact ⟨l, hl, by rw [← hg]; exact getFavs_congr e, by rw [e]; exact hs⟩
    | saveList server name email note =>
      have e : (step st (.saveList server name email note)).localStorage.getItem storeKey
          = st.localStorage.getItem storeKey := by
        show (saveList server st name email note).1.localStorage.getItem storeKey = _
        rw [saveList_localStorage]
      exact ⟨l, hl, by rw [← hg]; exact getFavs_congr e, by rw [e]; exact hs⟩

/-- C10: in every state reached from empty storage by the public operations
the persisted favourites are absent or the serialisation of an array of
strings without repetition, and `getFavorites()` reads that array; and one
`toggleFavorite(s)` on a stored array of strings, duplicates allowed, persists
an array without repetition. -/
theorem favorites_never_duplicated :
    (∀ st, Reachable st →
      ∃ l : List JSString, l.Nodup ∧ getFavorites st = .arr (l.map JsVal.str) ∧
        (st.localStorage.getItem storeKey = none ∨
          st.localStorage.getItem storeKey = some (JSON.stringify (.arr (l.map JsVal.str))))) ∧
    (∀ (st : State) (raw : JSString) (l : List JSString) (s : JSString),
      st.localStorage.getItem storeKey = some raw →
      JSON.parse raw = .ok (.arr (l.map JsVal.str)) →
      ∃ l2 : List JSString, l2.Nodup ∧
        (toggleFavorite st s).1.localStorage.getItem storeKey =
          some (JSON.stringify (.arr (l2.map JsVal.str))) ∧
        getFavorites (toggleFavorite st s).1 = .arr (l2.map JsVal.str)) := by
  refine ⟨reachable_favorites, ?_⟩
  intro st raw l s hraw hparse
  obtain ⟨_, h2, h3⟩ := getFavs_toggle st l s (getFavs_of_stored hraw hparse)
  exact ⟨toggleList l s, toggleList_nodup l s, h2, h3⟩

theorem favorites_never_duplicated_witness :
    (toggleFavorite (exampleState (some (utf16 "[\"a\",\"a\",\"\\ud800\",\"\\udc00\"]")) none)
        (utf16 "c")).1.localStorage.getItem storeKey
      = some (utf16 "[\"a\",\"\\ud800\",\"\\udc00\",\"c\"]") ∧
    (∃ l2 : List JSString, l2.Nodup ∧
      (toggleFavorite (exampleState (some (utf16 "[\"a\",\"a\",\"\\ud800\",\"\\udc00\"]")) none)
          (utf16 "c")).1.localStorage.getItem storeKey
        = some (JSON.stringify (.arr (l2.map JsVal.str))) ∧
      getFavorites
          (toggleFavorite (exampleState (some (utf16 "[\"a\",\"a\",\"\\ud800\",\"\\udc00\"]")) none)
            (utf16 "c")).1 = .arr (l2.map JsVal.str)) ∧
    ∃ l : List JSString, l.Nodup ∧
      getFavorites (step (step (step (exampleState none none) (.toggleFavorite (utf16 "a")))
        (.changeCity (.str (utf16 "Metropolis")))) (.toggleFavorite (utf16 "b")))
          = .arr (l.map JsVal.str) ∧
      ((step (step (step (exampleState none none) (.toggleFavorite (utf16 "a")))
          (.changeCity (.str (utf16 "Metropolis")))) (.toggleFavorite (utf16 "b"))).localStorage.getItem
            storeKey = none ∨
        (step (step (step (exampleState none none) (.toggleFavorite (utf16 "a")))
          (.changeCity (.str (utf16 "Metropolis")))) (.toggleFavorite (utf16 "b"))).localStorage.getItem
            storeKey = some (JSON.stringify (.arr (l.map JsVal.str)))) :=
  ⟨rfl,
    favorites_never_duplicated.2 _ _ [utf16 "a", utf16 "a", [cu 55296], [cu 56320]] (utf16 "c")
      rfl rfl,
    favorites_never_duplicated.1 _
      (.step _ _ (.step _ _ (.step _ _ (.init _ (by funext k; simp [exampleState, emptyStorage])))))⟩

end MyUni
